import Mathlib

/-!
Verification of the tamper-evident tic-tac-toe log protocol
(canonical JSON serializer, hash chain, game FSM, replay verifier,
client-side log authoring), shallowly embedded from the JavaScript
sources `server/index.js` and `client/main.js` (which contains
`fsm.js`).

The SHA-256 hex digest supplied by the `crypto` library is modelled as
an abstract function `H : String → String`; every property proved here
holds uniformly in `H`.
-/

namespace TicTacToe

/-! ## JSON values

A JSON-like value tree as produced by `JSON.parse`: null, booleans,
numbers, strings, arrays and string-keyed objects.  Object fields keep
their insertion order, as JavaScript objects do.  Numbers are modelled
as integers: the only numbers this protocol ever serializes are
sequence numbers, timestamps and board indices.
-/

inductive Json where
  | null : Json
  | bool (b : Bool) : Json
  | num (n : Int) : Json
  | str (s : String) : Json
  | arr (elems : List Json) : Json
  | obj (fields : List (String × Json)) : Json

/-- Object field lookup, i.e. the JavaScript member access `obj[key]`
(`none` models `undefined`). -/
def Json.getField? : Json → String → Option Json
  | .obj fields, key => fields.lookup key
  | _, _ => none

/-- One hexadecimal digit, lowercase. -/
def hexDigitChar (n : Nat) : Char :=
  if n < 10 then Char.ofNat (48 + n) else Char.ofNat (87 + n)

/-- Four hexadecimal digits, as used by the `\u00XX` escapes of
`JSON.stringify`. -/
def hex4 (n : Nat) : String :=
  String.mk [hexDigitChar (n / 4096 % 16), hexDigitChar (n / 256 % 16),
    hexDigitChar (n / 16 % 16), hexDigitChar (n % 16)]

/-- Escaping of a single character inside a JSON string literal,
following `JSON.stringify`. -/
def jsonEscapeChar (c : Char) : String :=
  if c = '"' then "\\\""
  else if c = '\\' then "\\\\"
  else if c = '\x08' then "\\b"
  else if c = '\x09' then "\\t"
  else if c = '\x0a' then "\\n"
  else if c = '\x0c' then "\\f"
  else if c = '\x0d' then "\\r"
  else if c.toNat < 32 then "\\u" ++ hex4 c.toNat
  else String.singleton c

/-- `JSON.stringify` applied to a string: double quotes around the
escaped characters. -/
def quoteString (s : String) : String :=
  "\"" ++ String.join (s.data.map jsonEscapeChar) ++ "\""

/-! ## Sorting object keys

`getCanonicalString` sorts `Object.keys(obj)` ascending before
serializing the fields.  We embed this as an insertion sort of the
field list by key (JavaScript objects cannot hold duplicate keys, and
for duplicate-free key sets every sort agrees). -/

/-- Boolean lexicographic comparison of character lists, by code
point: the order `Array.prototype.sort()` uses on the key strings. -/
def charListLE : List Char → List Char → Bool
  | [], _ => true
  | _ :: _, [] => false
  | a :: as, b :: bs =>
    if a < b then true
    else if b < a then false
    else charListLE as bs

/-- Boolean string comparison, agreeing with `≤` (see `strLE_iff`). -/
def strLE (s t : String) : Bool := charListLE s.data t.data

/-- Insert a key-value pair into a key-sorted list of pairs. -/
def insertByKey {β : Type} (p : String × β) : List (String × β) → List (String × β)
  | [] => [p]
  | q :: qs => if strLE p.1 q.1 then p :: q :: qs else q :: insertByKey p qs

/-- Sort a list of key-value pairs by ascending key, as
`Object.keys(obj).sort()` does. -/
def sortByKey {β : Type} : List (String × β) → List (String × β)
  | [] => []
  | p :: ps => insertByKey p (sortByKey ps)

/-- The relation "keys are in ascending order" on adjacent pairs. -/
abbrev keyLE {β : Type} (p q : String × β) : Prop := p.1 ≤ q.1


mutual

def jsonSize : Json → Nat
  | .null => 1
  | .bool _ => 1
  | .num _ => 1
  | .str _ => 1
  | .arr xs => 1 + jsonListSize xs
  | .obj l => 1 + jsonFieldsSize l

def jsonListSize : List Json → Nat
  | [] => 0
  | x :: xs => 1 + jsonSize x + jsonListSize xs

def jsonFieldsSize : List (String × Json) → Nat
  | [] => 0
  | p :: ps => 1 + jsonSize p.2 + jsonFieldsSize ps

end


def canonicalWithFuel : Nat → Json → String
  | 0, _ => ""
  | _ + 1, .null => "null"
  | _ + 1, .bool b => cond b "true" "false"
  | _ + 1, .num n => toString n
  | _ + 1, .str s => quoteString s
  | fuel + 1, .arr xs =>
      "[" ++ String.intercalate "," (xs.map (canonicalWithFuel fuel)) ++ "]"
  | fuel + 1, .obj l =>
      "\x7b" ++ String.intercalate ","
        ((sortByKey l).map (fun p => quoteString p.1 ++ ":" ++ canonicalWithFuel fuel p.2))
        ++ "\x7d"

/-- The canonical serializer `getCanonicalString` of `server/index.js`
and `client/main.js`: primitives via `JSON.stringify`, arrays in order,
object fields sorted by ascending key. -/
def getCanonicalString (j : Json) : String := canonicalWithFuel (jsonSize j) j


def STATES.GAME_STARTING : String := "GAME_STARTING"

def STATES.PLAYER_X_TURN : String := "PLAYER_X_TURN"

def STATES.PLAYER_O_TURN : String := "PLAYER_O_TURN"

def STATES.GAME_OVER_X_WINS : String := "GAME_OVER_X_WINS"

def STATES.GAME_OVER_O_WINS : String := "GAME_OVER_O_WINS"

def STATES.GAME_OVER_DRAW : String := "GAME_OVER_DRAW"

def EVENTS.PLAYER_MOVE_ATTEMPTED : String := "PLAYER_MOVE_ATTEMPTED"

/-- The 3x3 game board, row-major: `cRC` is `board[R][C]`. -/
structure Board where
  c00 : String
  c01 : String
  c02 : String
  c10 : String
  c11 : String
  c12 : String
  c20 : String
  c21 : String
  c22 : String
deriving DecidableEq, Repr

/-- `board[r][c]` for `r, c ∈ [0,2]` (defaulting outside the grid; the
FSM only reads after its bounds check). -/
def getCell (b : Board) (r c : Nat) : String :=
  match r, c with
  | 0, 0 => b.c00
  | 0, 1 => b.c01
  | 0, 2 => b.c02
  | 1, 0 => b.c10
  | 1, 1 => b.c11
  | 1, 2 => b.c12
  | 2, 0 => b.c20
  | 2, 1 => b.c21
  | 2, 2 => b.c22
  | _, _ => ""

/-- `board[r][c] = sym` for `r, c ∈ [0,2]` (identity outside the grid;
the FSM only writes after its bounds check). -/
def setCell (b : Board) (r c : Nat) (sym : String) : Board :=
  match r, c with
  | 0, 0 => { b with c00 := sym }
  | 0, 1 => { b with c01 := sym }
  | 0, 2 => { b with c02 := sym }
  | 1, 0 => { b with c10 := sym }
  | 1, 1 => { b with c11 := sym }
  | 1, 2 => { b with c12 := sym }
  | 2, 0 => { b with c20 := sym }
  | 2, 1 => { b with c21 := sym }
  | 2, 2 => { b with c22 := sym }
  | _, _ => b

/-- `cloneBoard` of `fsm.js` deep-copies the board via a JSON round
trip; on immutable values this is the identity.  (Its point in the
source, not mutating the caller's array, is verified separately in the
heap model below.) -/
def cloneBoard (b : Board) : Board := b

/-- The board as the JSON value `JSON.parse` would produce for the
serialized 3x3 array. -/
def boardToJson (b : Board) : Json :=
  .arr [.arr [.str b.c00, .str b.c01, .str b.c02],
        .arr [.str b.c10, .str b.c11, .str b.c12],
        .arr [.str b.c20, .str b.c21, .str b.c22]]

/-- The 8 win conditions of `checkWin`: 3 rows, 3 columns, 2
diagonals. -/
def winConditions : List (List (Nat × Nat)) :=
  [[(0, 0), (0, 1), (0, 2)],
   [(1, 0), (1, 1), (1, 2)],
   [(2, 0), (2, 1), (2, 2)],
   [(0, 0), (1, 0), (2, 0)],
   [(0, 1), (1, 1), (2, 1)],
   [(0, 2), (1, 2), (2, 2)],
   [(0, 0), (1, 1), (2, 2)],
   [(0, 2), (1, 1), (2, 0)]]

/-- `checkWin`: some win condition has all three cells equal to the
player's symbol. -/
def checkWin (board : Board) (playerSymbol : String) : Bool :=
  winConditions.any (fun combination =>
    combination.all (fun rc => getCell board rc.1 rc.2 == playerSymbol))

/-- `checkDraw`: no empty cell remains (`board.every(row =>
row.every(cell => cell !== ''))`, flattened row-major). -/
def checkDraw (board : Board) : Bool :=
  [board.c00, board.c01, board.c02,
   board.c10, board.c11, board.c12,
   board.c20, board.c21, board.c22].all (fun cell => cell != "")

structure GameState where
  currentState : String
  board : Board
  playerX : String
  playerO : String
deriving DecidableEq, Repr

structure Move where
  rowIndex : Int
  colIndex : Int
deriving DecidableEq, Repr

/-- The payload of a `PLAYER_MOVE_ATTEMPTED` event.  `playerId` is
`Option String` because `eventData.playerId` may be absent
(`undefined`) in a replayed log entry; the FSM only compares it with
`!==`. -/
structure EventData where
  move : Move
  playerId : Option String
deriving DecidableEq, Repr

structure TransitionResult where
  newState : String
  isValidMove : Bool
  newBoard : Option Board
  error : Option String
deriving DecidableEq, Repr

/-- The fallthrough return at the bottom of `transition`. -/
def noTransitionResult (s : GameState) (event : String) : TransitionResult :=
  { newState := s.currentState, isValidMove := false, newBoard := none,
    error := some ("No valid transition for event " ++ event ++ " from state "
      ++ s.currentState ++ ".") }

/-- The body of `transition` past its argument guard: the `switch` on
`currentState`. -/
def transitionBody (s : GameState) (event : String) (eventData : EventData) : TransitionResult :=
  if s.currentState = STATES.PLAYER_X_TURN then
    if event = EVENTS.PLAYER_MOVE_ATTEMPTED then
      if eventData.playerId ≠ some s.playerX then
        { newState := s.currentState, isValidMove := false, newBoard := none,
          error := some "Not player X's turn." }
      else if eventData.move.rowIndex < 0 ∨ eventData.move.rowIndex > 2 ∨
          eventData.move.colIndex < 0 ∨ eventData.move.colIndex > 2 ∨
          getCell s.board eventData.move.rowIndex.toNat eventData.move.colIndex.toNat ≠ "" then
        { newState := s.currentState, isValidMove := false, newBoard := none,
          error := some "Invalid move: cell is occupied or out of bounds." }
      else
        let newBoardX :=
          setCell (cloneBoard s.board) eventData.move.rowIndex.toNat eventData.move.colIndex.toNat "X"
        if checkWin newBoardX "X" then
          { newState := STATES.GAME_OVER_X_WINS, isValidMove := true,
            newBoard := some newBoardX, error := none }
        else if checkDraw newBoardX then
          { newState := STATES.GAME_OVER_DRAW, isValidMove := true,
            newBoard := some newBoardX, error := none }
        else
          { newState := STATES.PLAYER_O_TURN, isValidMove := true,
            newBoard := some newBoardX, error := none }
    else noTransitionResult s event
  else if s.currentState = STATES.PLAYER_O_TURN then
    if event = EVENTS.PLAYER_MOVE_ATTEMPTED then
      if eventData.playerId ≠ some s.playerO then
        { newState := s.currentState, isValidMove := false, newBoard := none,
          error := some "Not player O's turn." }
      else if eventData.move.rowIndex < 0 ∨ eventData.move.rowIndex > 2 ∨
          eventData.move.colIndex < 0 ∨ eventData.move.colIndex > 2 ∨
          getCell s.board eventData.move.rowIndex.toNat eventData.move.colIndex.toNat ≠ "" then
        { newState := s.currentState, isValidMove := false, newBoard := none,
          error := some "Invalid move: cell is occupied or out of bounds." }
      else
        let newBoardO :=
          setCell (cloneBoard s.board) eventData.move.rowIndex.toNat eventData.move.colIndex.toNat "O"
        if checkWin newBoardO "O" then
          { newState := STATES.GAME_OVER_O_WINS, isValidMove := true,
            newBoard := some newBoardO, error := none }
        else if checkDraw newBoardO then
          { newState := STATES.GAME_OVER_DRAW, isValidMove := true,
            newBoard := some newBoardO, error := none }
        else
          { newState := STATES.PLAYER_X_TURN, isValidMove := true,
            newBoard := some newBoardO, error := none }
    else noTransitionResult s event
  else if s.currentState = STATES.GAME_OVER_X_WINS ∨
      s.currentState = STATES.GAME_OVER_O_WINS ∨
      s.currentState = STATES.GAME_OVER_DRAW then
    { newState := s.currentState, isValidMove := false, newBoard := none,
      error := some "Game is already over." }
  else noTransitionResult s event

/-- `transition` of `fsm.js`.  The source throws on falsy arguments
(`!currentGameState || !event || !eventData || !eventData.move`); with
structured state and event data the only representable falsy argument
is the empty event string, and `none` models that thrown `Error`. -/
def transition (currentGameState : GameState) (event : String) (eventData : EventData) :
    Option TransitionResult :=
  if event = "" then none
  else some (transitionBody currentGameState event eventData)

/-- `getInitialGameState` of `fsm.js`. -/
def getInitialGameState (playerX_Id playerO_Id : String) : GameState :=
  { currentState := STATES.PLAYER_X_TURN,
    board := { c00 := "", c01 := "", c02 := "",
               c10 := "", c11 := "", c12 := "",
               c20 := "", c21 := "", c22 := "" },
    playerX := playerX_Id,
    playerO := playerO_Id }

/-! ## Log entries and the hash chain (`server/index.js`) -/

/-- A decrypted log entry with the shape the protocol authors.
`eventData` and `boardState` are JSON values. -/
structure LogEntry where
  sequence : Int
  eventType : String
  clientTimestamp : Int
  eventData : Json
  boardState : Json
  fsmState : String
  previousEntryChainHash : String
  currentEntryChainHash : String

/-- `getObjectToHash`: the entry with its `currentEntryChainHash` field
removed (rest-destructuring).  The field order here is irrelevant:
canonicalization re-sorts the keys. -/
def getObjectToHash (logEntry : LogEntry) : Json :=
  .obj [("sequence", .num logEntry.sequence),
        ("eventType", .str logEntry.eventType),
        ("clientTimestamp", .num logEntry.clientTimestamp),
        ("eventData", logEntry.eventData),
        ("boardState", logEntry.boardState),
        ("fsmState", .str logEntry.fsmState),
        ("previousEntryChainHash", .str logEntry.previousEntryChainHash)]

/-- `calculateEntryHash`, with `H` the abstract SHA-256 hex digest. -/
def calculateEntryHash (H : String → String) (logEntry : LogEntry) : String :=
  H (getCanonicalString (getObjectToHash logEntry))

/-- `"0".repeat(64)`. -/
def zeroHash : String := String.mk (List.replicate 64 '0')

/-- The loop of `verifyHashChain`, carrying `previousHash`. -/
def verifyHashChainGo (H : String → String) (previousHash : String) : List LogEntry → Bool
  | [] => true
  | entry :: rest =>
    if entry.previousEntryChainHash ≠ previousHash then false
    else if calculateEntryHash H entry ≠ entry.currentEntryChainHash then false
    else verifyHashChainGo H entry.currentEntryChainHash rest

/-- `verifyHashChain` of `server/index.js`. -/
def verifyHashChain (H : String → String) (gameLog : List LogEntry) : Bool :=
  verifyHashChainGo H zeroHash gameLog

/-! ## The replay verifier (`verifyFsmGameplay`)

Exceptions the JavaScript code would throw while verifying (reading a
property of `undefined`) are modelled by `none`; `some b` is the
boolean the function returns. -/

/-- JavaScript's `s.startsWith(p)`, computed on the character lists
(extensionally the same as `String.startsWith`). -/
def jsStartsWith (s p : String) : Bool :=
  p.data.isPrefixOf s.data

/-- `eventData.playerId` as read by the verifier: a string, or `none`
for anything the FSM's `!==` comparison treats as not the player's id
(absent field or non-string value). -/
def extractPlayerId (j : Json) : Option String :=
  match j.getField? "playerId" with
  | some (.str s) => some s
  | _ => none

/-- The `eventData = { move: entry.eventData.move, playerId:
entry.eventData.playerId }` reconstruction (lines 84-87 of
`server/index.js`); `none` models the shapes on which the replay would
throw (missing `move` object or non-numeric indices). -/
def extractEventData (e : LogEntry) : Option EventData :=
  match e.eventData.getField? "move" with
  | some mv =>
    match mv.getField? "rowIndex", mv.getField? "colIndex" with
    | some (.num r), some (.num c) =>
      some { move := { rowIndex := r, colIndex := c }, playerId := extractPlayerId e.eventData }
    | _, _ => none
  | _ => none

inductive ReplayOut where
  | rejected : ReplayOut
  | ok (st : GameState) : ReplayOut
deriving DecidableEq, Repr

/-- The `for (const moveEntry of validatedMoves)` loop of
`verifyFsmGameplay`: checks 1 (move valid), 2 (recorded `fsmState`
matches) and 3 (board-state hashes match), then advances the server
state.  `.rejected` is an early `return false`. -/
def replayMoves (H : String → String) (st : GameState) : List LogEntry → Option ReplayOut
  | [] => some (.ok st)
  | moveEntry :: rest =>
    match extractEventData moveEntry with
    | none => none
    | some eventData =>
      match transition st EVENTS.PLAYER_MOVE_ATTEMPTED eventData with
      | none => none
      | some transitionResult =>
        if !transitionResult.isValidMove then some .rejected
        else if transitionResult.newState ≠ moveEntry.fsmState then some .rejected
        else
          match transitionResult.newBoard with
          | none => none
          | some newBoard =>
            if H (getCanonicalString (boardToJson newBoard))
                ≠ H (getCanonicalString moveEntry.boardState) then some .rejected
            else
              replayMoves H
                { st with currentState := transitionResult.newState, board := newBoard } rest

/-- `verifyFsmGameplay` of `server/index.js`: replay the
`PLAYER_MOVE_VALIDATED` entries from the initial state, then check that
the final log entry is a game-over event (`startsWith('GAME_')`) whose
recorded `fsmState` equals the server's final state. -/
def verifyFsmGameplay (H : String → String) (gameLog : List LogEntry)
    (playerX_Id playerO_Id : String) : Option Bool :=
  match replayMoves H (getInitialGameState playerX_Id playerO_Id)
      (gameLog.filter (fun entry => entry.eventType == "PLAYER_MOVE_VALIDATED")) with
  | none => none
  | some .rejected => some false
  | some (.ok serverGameState) =>
    match gameLog.getLast? with
    | none => none
    | some clientFinalLogEntry =>
      if ¬ jsStartsWith clientFinalLogEntry.eventType "GAME_" then some false
      else if clientFinalLogEntry.fsmState ≠ serverGameState.currentState then some false
      else some true

/-! ## Key-order normalization (specification device)

`normalizeJson` recursively sorts every object's field list by key and
leaves everything else untouched.  Two JSON trees are "structurally
equal up to key insertion order" exactly when they have the same
normalization, so it lets us state that `getCanonicalString` is
insertion-order independent.  Like the serializer it recurses through
a sorted copy, hence the same fuel device. -/

def normalizeWithFuel : Nat → Json → Json
  | 0, j => j
  | fuel + 1, .arr xs => .arr (xs.map (normalizeWithFuel fuel))
  | fuel + 1, .obj l => .obj ((sortByKey l).map (fun p => (p.1, normalizeWithFuel fuel p.2)))
  | _ + 1, j => j

def normalizeJson (j : Json) : Json := normalizeWithFuel (jsonSize j) j

/-! ## Client-side log authoring (`client/main.js`)

The session state of the client: the FSM game state, the growing log,
the running chain hash and the sequence counter.  `addLogEntry`,
`startGame`, `handleCellClick` and the game-over branch of `render`
are embedded below; DOM rendering, networking and encryption are
outside the replayed core.  `Date.now()` timestamps are taken from the
inputs. -/

structure ClientSt where
  state : GameState
  gameLog : List LogEntry
  latestEntryChainHash : String
  sequenceNumber : Int

/-- `addLogEntry(eventType, eventData)`: build the entry from the
current session state (the entry is hashed before its own
`currentEntryChainHash` field is assigned, and that field is excluded
from the hash), append it, and advance the chain head and sequence
counter. -/
def addLogEntry (H : String → String) (cs : ClientSt) (eventType : String)
    (eventData : Json) (timestamp : Int) : ClientSt :=
  let logEntry : LogEntry :=
    { sequence := cs.sequenceNumber,
      eventType := eventType,
      clientTimestamp := timestamp,
      eventData := eventData,
      boardState := boardToJson (cloneBoard cs.state.board),
      fsmState := cs.state.currentState,
      previousEntryChainHash := cs.latestEntryChainHash,
      currentEntryChainHash := "" }
  let newHash := calculateEntryHash H logEntry
  { cs with
    gameLog := cs.gameLog ++ [{ logEntry with currentEntryChainHash := newHash }],
    latestEntryChainHash := newHash,
    sequenceNumber := cs.sequenceNumber + 1 }

/-- The game-over branch of `render()`: once the state is terminal and
the last entry is still a `PLAYER_*` event, append the final
`GAME_WON`/`GAME_DRAWN` entry. -/
def renderFinalEntry (H : String → String) (playerX_Id playerO_Id : String)
    (cs : ClientSt) (timestamp : Int) : ClientSt :=
  match cs.gameLog.getLast? with
  | none => cs
  | some lastEntry =>
    if jsStartsWith cs.state.currentState "GAME_OVER"
        ∧ jsStartsWith lastEntry.eventType "PLAYER_" then
      let finalEventType :=
        if cs.state.currentState = STATES.GAME_OVER_DRAW then "GAME_DRAWN" else "GAME_WON"
      let finalEventData :=
        if finalEventType = "GAME_WON" then
          Json.obj [("winningPlayerId",
            .str (if cs.state.currentState = STATES.GAME_OVER_X_WINS then playerX_Id
              else playerO_Id))]
        else Json.obj []
      addLogEntry H cs finalEventType finalEventData timestamp
    else cs

/-- `startGame()` after a successful `/api/create-game` round trip:
fresh log, zero chain head, initial FSM state, `GAME_CREATED` entry,
first `render()`. -/
def startGame (H : String → String) (playerX_Id playerO_Id : String) (timestamp : Int) :
    ClientSt :=
  renderFinalEntry H playerX_Id playerO_Id
    (addLogEntry H
      { state := getInitialGameState playerX_Id playerO_Id,
        gameLog := [],
        latestEntryChainHash := zeroHash,
        sequenceNumber := 0 }
      "GAME_CREATED"
      (.obj [("playerX", .str playerX_Id), ("playerO", .str playerO_Id)])
      timestamp)
    timestamp

/-- A user click on cell `(rowIndex, colIndex)`, with the `Date.now()`
value observed while logging it. -/
structure Click where
  rowIndex : Int
  colIndex : Int
  timestamp : Int

/-- `handleCellClick`: ignore clicks once the game is over; otherwise
derive the mover from the turn state, run the FSM, update the session
state *before* logging (so the entry records the post-move board and
state), log `PLAYER_MOVE_VALIDATED` or `PLAYER_MOVE_REJECTED`, and
re-render (which may append the final game-over entry). -/
def handleCellClick (H : String → String) (playerX_Id playerO_Id : String)
    (cs : ClientSt) (click : Click) : ClientSt :=
  if jsStartsWith cs.state.currentState "GAME_OVER" then cs
  else
    let currentPlayerId :=
      if cs.state.currentState = STATES.PLAYER_X_TURN then playerX_Id else playerO_Id
    let currentSymbol :=
      if cs.state.currentState = STATES.PLAYER_X_TURN then "X" else "O"
    let eventData : EventData :=
      { move := { rowIndex := click.rowIndex, colIndex := click.colIndex },
        playerId := some currentPlayerId }
    match transition cs.state EVENTS.PLAYER_MOVE_ATTEMPTED eventData with
    | none => cs
    | some transitionResult =>
      let newState : GameState :=
        { cs.state with
          currentState := transitionResult.newState,
          board :=
            if transitionResult.isValidMove then
              transitionResult.newBoard.getD cs.state.board
            else cs.state.board }
      let cs' := { cs with state := newState }
      let cs'' :=
        if transitionResult.isValidMove then
          addLogEntry H cs' "PLAYER_MOVE_VALIDATED"
            (.obj [("playerId", .str currentPlayerId),
                   ("move", .obj [("rowIndex", .num click.rowIndex),
                                  ("colIndex", .num click.colIndex)]),
                   ("symbolPlaced", .str currentSymbol)])
            click.timestamp
        else
          addLogEntry H cs' "PLAYER_MOVE_REJECTED"
            (.obj [("playerId", .str currentPlayerId),
                   ("attemptedMove", .obj [("rowIndex", .num click.rowIndex),
                                           ("colIndex", .num click.colIndex)]),
                   ("reason", match transitionResult.error with
                              | some e => .str e
                              | none => .null)])
            click.timestamp
      renderFinalEntry H playerX_Id playerO_Id cs'' click.timestamp

/-- A full legitimate client session: `startGame`, then the given
clicks in order. -/
def playGame (H : String → String) (playerX_Id playerO_Id : String) (timestamp : Int)
    (clicks : List Click) : ClientSt :=
  clicks.foldl (handleCellClick H playerX_Id playerO_Id) (startGame H playerX_Id playerO_Id timestamp)

/-! ## A heap model of the FSM transition

JavaScript boards are mutable arrays reached through references.  To
state that `transition` never mutates its input (it clones the board
before placing the symbol), we re-embed it against an explicit heap of
boards: `cloneBoard` allocates a fresh cell, and the write targets only
that cell.  `transitionH_pure` below proves the frame property and that
the observable result agrees with the pure `transition`. -/

/-- An unused heap cell (dangling references never arise under the
well-formedness hypothesis of the theorems). -/
def blankBoard : Board :=
  { c00 := "", c01 := "", c02 := "",
    c10 := "", c11 := "", c12 := "",
    c20 := "", c21 := "", c22 := "" }

/-- A game state holding a board reference instead of a board value. -/
structure HeapGameState where
  currentState : String
  boardRef : Nat
  playerX : String
  playerO : String

/-- A transition result holding a board reference. -/
structure TransitionResultH where
  newState : String
  isValidMove : Bool
  newBoardRef : Option Nat
  error : Option String

def readBoard (heap : List Board) (r : Nat) : Board :=
  (heap.get? r).getD blankBoard

/-- `cloneBoard` in the heap model: allocate a fresh cell holding a
copy of the referenced board, and return its reference. -/
def cloneBoardH (heap : List Board) (r : Nat) : List Board × Nat :=
  (heap ++ [readBoard heap r], heap.length)

/-- `newBoard[rowIndex][colIndex] = symbol` in the heap model: write
through the (freshly allocated) reference. -/
def writeCellH (heap : List Board) (r : Nat) (i j : Nat) (sym : String) : List Board :=
  heap.set r (setCell (readBoard heap r) i j sym)

/-- The body of `transition` in the heap model, mirroring
`transitionBody` branch for branch. -/
def transitionBodyH (heap : List Board) (s : HeapGameState) (event : String)
    (eventData : EventData) : List Board × TransitionResultH :=
  if s.currentState = STATES.PLAYER_X_TURN then
    if event = EVENTS.PLAYER_MOVE_ATTEMPTED then
      if eventData.playerId ≠ some s.playerX then
        (heap, { newState := s.currentState, isValidMove := false, newBoardRef := none,
                 error := some "Not player X's turn." })
      else if eventData.move.rowIndex < 0 ∨ eventData.move.rowIndex > 2 ∨
          eventData.move.colIndex < 0 ∨ eventData.move.colIndex > 2 ∨
          getCell (readBoard heap s.boardRef)
            eventData.move.rowIndex.toNat eventData.move.colIndex.toNat ≠ "" then
        (heap, { newState := s.currentState, isValidMove := false, newBoardRef := none,
                 error := some "Invalid move: cell is occupied or out of bounds." })
      else
        let alloc := cloneBoardH heap s.boardRef
        let heap2 := writeCellH alloc.1 alloc.2
          eventData.move.rowIndex.toNat eventData.move.colIndex.toNat "X"
        if checkWin (readBoard heap2 alloc.2) "X" then
          (heap2, { newState := STATES.GAME_OVER_X_WINS, isValidMove := true,
                    newBoardRef := some alloc.2, error := none })
        else if checkDraw (readBoard heap2 alloc.2) then
          (heap2, { newState := STATES.GAME_OVER_DRAW, isValidMove := true,
                    newBoardRef := some alloc.2, error := none })
        else
          (heap2, { newState := STATES.PLAYER_O_TURN, isValidMove := true,
                    newBoardRef := some alloc.2, error := none })
    else
      (heap, { newState := s.currentState, isValidMove := false, newBoardRef := none,
               error := some ("No valid transition for event " ++ event ++ " from state "
                 ++ s.currentState ++ ".") })
  else if s.currentState = STATES.PLAYER_O_TURN then
    if event = EVENTS.PLAYER_MOVE_ATTEMPTED then
      if eventData.playerId ≠ some s.playerO then
        (heap, { newState := s.currentState, isValidMove := false, newBoardRef := none,
                 error := some "Not player O's turn." })
      else if eventData.move.rowIndex < 0 ∨ eventData.move.rowIndex > 2 ∨
          eventData.move.colIndex < 0 ∨ eventData.move.colIndex > 2 ∨
          getCell (readBoard heap s.boardRef)
            eventData.move.rowIndex.toNat eventData.move.colIndex.toNat ≠ "" then
        (heap, { newState := s.currentState, isValidMove := false, newBoardRef := none,
                 error := some "Invalid move: cell is occupied or out of bounds." })
      else
        let alloc := cloneBoardH heap s.boardRef
        let heap2 := writeCellH alloc.1 alloc.2
          eventData.move.rowIndex.toNat eventData.move.colIndex.toNat "O"
        if checkWin (readBoard heap2 alloc.2) "O" then
          (heap2, { newState := STATES.GAME_OVER_O_WINS, isValidMove := true,
                    newBoardRef := some alloc.2, error := none })
        else if checkDraw (readBoard heap2 alloc.2) then
          (heap2, { newState := STATES.GAME_OVER_DRAW, isValidMove := true,
                    newBoardRef := some alloc.2, error := none })
        else
          (heap2, { newState := STATES.PLAYER_X_TURN, isValidMove := true,
                    newBoardRef := some alloc.2, error := none })
    else
      (heap, { newState := s.currentState, isValidMove := false, newBoardRef := none,
               error := some ("No valid transition for event " ++ event ++ " from state "
                 ++ s.currentState ++ ".") })
  else if s.currentState = STATES.GAME_OVER_X_WINS ∨
      s.currentState = STATES.GAME_OVER_O_WINS ∨
      s.currentState = STATES.GAME_OVER_DRAW then
    (heap, { newState := s.currentState, isValidMove := false, newBoardRef := none,
             error := some "Game is already over." })
  else
    (heap, { newState := s.currentState, isValidMove := false, newBoardRef := none,
             error := some ("No valid transition for event " ++ event ++ " from state "
               ++ s.currentState ++ ".") })

/-- `transition` in the heap model, with the same argument guard. -/
def transitionH (heap : List Board) (s : HeapGameState) (event : String)
    (eventData : EventData) : Option (List Board × TransitionResultH) :=
  if event = "" then none
  else some (transitionBodyH heap s event eventData)

/-- The pure game state a heap state denotes. -/
def pureOfHeap (heap : List Board) (s : HeapGameState) : GameState :=
  { currentState := s.currentState, board := readBoard heap s.boardRef,
    playerX := s.playerX, playerO := s.playerO }

/-- The observable value of a heap-model result: dereference the board. -/
def derefResult (out : List Board × TransitionResultH) : TransitionResult :=
  { newState := out.2.newState, isValidMove := out.2.isValidMove,
    newBoard := out.2.newBoardRef.map (readBoard out.1), error := out.2.error }

/-! ## Chain-walk specification predicates -/

/-- The hash that the chain walk (started at `previousHash`) requires
`gameLog[j].previousEntryChainHash` to equal: the start hash at
position 0, otherwise the stored `currentEntryChainHash` of the
predecessor. -/
def chainPrevAt (previousHash : String) (gameLog : List LogEntry) (j : Nat) : Option String :=
  match j with
  | 0 => some previousHash
  | k + 1 => (gameLog.get? k).map (fun e => e.currentEntryChainHash)

/-- Position `j` of the log violates the chain conditions: its
`previousEntryChainHash` does not match the predecessor hash, or its
stored `currentEntryChainHash` differs from the recomputed entry
hash. -/
def chainViolationAt (H : String → String) (previousHash : String)
    (gameLog : List LogEntry) (j : Nat) : Prop :=
  ∃ e, gameLog.get? j = some e ∧
    (some e.previousEntryChainHash ≠ chainPrevAt previousHash gameLog j ∨
     calculateEntryHash H e ≠ e.currentEntryChainHash)

/-! ## The honest-authoring invariant (for the round-trip property) -/

/-- The chain head after a log: the last entry's
`currentEntryChainHash`, or the start hash for the empty log. -/
def chainEndHash (previousHash : String) : List LogEntry → String
  | [] => previousHash
  | e :: rest => chainEndHash e.currentEntryChainHash rest

/-- The invariant legitimate client play maintains: the session belongs
to the two players, the log's hash chain verifies and its head is the
session's `latestEntryChainHash`, replaying the validated moves
reproduces exactly the client's current game state, the log is
nonempty, and once the game is over the log ends in a game-over entry
recording the terminal state. -/
def honestInv (H : String → String) (playerX_Id playerO_Id : String) (cs : ClientSt) : Prop :=
  cs.state.playerX = playerX_Id ∧
  cs.state.playerO = playerO_Id ∧
  verifyHashChainGo H zeroHash cs.gameLog = true ∧
  chainEndHash zeroHash cs.gameLog = cs.latestEntryChainHash ∧
  replayMoves H (getInitialGameState playerX_Id playerO_Id)
      (cs.gameLog.filter (fun entry => entry.eventType == "PLAYER_MOVE_VALIDATED"))
    = some (.ok cs.state) ∧
  cs.gameLog ≠ [] ∧
  (jsStartsWith cs.state.currentState "GAME_OVER" = true →
    ∃ e, cs.gameLog.getLast? = some e ∧ jsStartsWith e.eventType "GAME_" = true ∧
      e.fsmState = cs.state.currentState)

/-- The clicks of a short game in which X completes the top row. -/
def demoClicks : List Click :=
  [{ rowIndex := 0, colIndex := 0, timestamp := 0 },
   { rowIndex := 1, colIndex := 0, timestamp := 1 },
   { rowIndex := 0, colIndex := 1, timestamp := 2 },
   { rowIndex := 1, colIndex := 1, timestamp := 3 },
   { rowIndex := 0, colIndex := 2, timestamp := 4 }]

/-! ## Concrete inputs used by witnesses and counterexamples -/

/-- A `GAME_CREATED` entry as `startGame` authors it (the chain hashes
are irrelevant to the replay verifier, which never reads them). -/
def gameCreatedEntry : LogEntry :=
  { sequence := 0, eventType := "GAME_CREATED", clientTimestamp := 0,
    eventData := .obj [("playerX", .str "DOGE"), ("playerO", .str "PEPE")],
    boardState := boardToJson (getInitialGameState "DOGE" "PEPE").board,
    fsmState := "PLAYER_X_TURN",
    previousEntryChainHash := zeroHash,
    currentEntryChainHash := zeroHash }

/-- A correctly recorded `PLAYER_MOVE_VALIDATED` entry for X's opening
move at (0,0). -/
def pmvEntry : LogEntry :=
  { sequence := 0, eventType := "PLAYER_MOVE_VALIDATED", clientTimestamp := 0,
    eventData := .obj [("playerId", .str "DOGE"),
                       ("move", .obj [("rowIndex", .num 0), ("colIndex", .num 0)]),
                       ("symbolPlaced", .str "X")],
    boardState := boardToJson (setCell (getInitialGameState "DOGE" "PEPE").board 0 0 "X"),
    fsmState := "PLAYER_O_TURN",
    previousEntryChainHash := zeroHash,
    currentEntryChainHash := zeroHash }

/-- A `PLAYER_MOVE_VALIDATED` entry claiming O moved first: the server
FSM rejects this replayed move. -/
def wrongTurnEntry : LogEntry :=
  { sequence := 0, eventType := "PLAYER_MOVE_VALIDATED", clientTimestamp := 0,
    eventData := .obj [("playerId", .str "PEPE"),
                       ("move", .obj [("rowIndex", .num 0), ("colIndex", .num 0)]),
                       ("symbolPlaced", .str "O")],
    boardState := boardToJson (setCell (getInitialGameState "DOGE" "PEPE").board 0 0 "O"),
    fsmState := "PLAYER_X_TURN",
    previousEntryChainHash := zeroHash,
    currentEntryChainHash := zeroHash }

/-! ## Supporting lemmas -/

theorem charListLE_iff : ∀ as bs : List Char,
    charListLE as bs = true ↔ ¬ List.Lex (· < ·) bs as := by
  intro as
  induction as with
  | nil =>
    intro bs
    simp only [charListLE, true_iff]
    intro h
    cases h
  | cons a as ih =>
    intro bs
    cases bs with
    | nil =>
      simp only [charListLE]
      constructor
      · intro h; simp at h
      · intro h; exact absurd List.Lex.nil h
    | cons b bs =>
      by_cases hab : a < b
      · simp only [charListLE, if_pos hab, true_iff]
        intro h
        cases h with
        | cons h' => exact absurd hab (lt_irrefl a)
        | rel h' => exact absurd hab (asymm h')
      · by_cases hba : b < a
        · simp only [charListLE, if_neg hab, if_pos hba]
          constructor
          · intro h; simp at h
          · intro h; exact absurd (List.Lex.rel hba) h
        · have heq : a = b := le_antisymm (le_of_not_lt hba) (le_of_not_lt hab)
          subst heq
          simp only [charListLE, if_neg hab, if_neg hba, ih bs]
          constructor
          · intro h hc
            cases hc with
            | cons h' => exact h h'
            | rel h' => exact absurd h' (lt_irrefl a)
          · intro h hc
            exact h (List.Lex.cons hc)

theorem strLE_iff (s t : String) : strLE s t = true ↔ s ≤ t := by
  rw [strLE, charListLE_iff s.data t.data]
  constructor
  · intro h hlt
    exact h (String.lt_iff_toList_lt.mp hlt)
  · intro h hlt
    exact h (String.lt_iff_toList_lt.mpr hlt)


theorem insertByKey_perm {β : Type} (p : String × β) (l : List (String × β)) :
    List.Perm (insertByKey p l) (p :: l) := by
  induction l with
  | nil => simp [insertByKey]
  | cons q qs ih =>
    by_cases h : strLE p.1 q.1 = true
    · simp [insertByKey, h]
    · simp only [insertByKey, if_neg h]
      exact (ih.cons q).trans (List.Perm.swap p q qs)

theorem sortByKey_perm {β : Type} (l : List (String × β)) :
    List.Perm (sortByKey l) l := by
  induction l with
  | nil => simp [sortByKey]
  | cons p ps ih =>
    exact (insertByKey_perm p (sortByKey ps)).trans (ih.cons p)


theorem insertByKey_sorted {β : Type} (p : String × β) {l : List (String × β)}
    (h : l.Pairwise keyLE) : (insertByKey p l).Pairwise keyLE := by
  induction l with
  | nil => simp [insertByKey, keyLE]
  | cons q qs ih =>
    rcases List.pairwise_cons.mp h with ⟨hq, hqs⟩
    by_cases hpq : strLE p.1 q.1 = true
    · have hple : p.1 ≤ q.1 := (strLE_iff p.1 q.1).mp hpq
      simp only [insertByKey, if_pos hpq]
      refine List.pairwise_cons.mpr ⟨?_, h⟩
      intro r hr
      rcases List.mem_cons.mp hr with hr | hr
      · subst hr; exact hple
      · exact le_trans hple (hq r hr)
    · have hqle : q.1 ≤ p.1 :=
        le_of_not_le (fun hc => hpq ((strLE_iff p.1 q.1).mpr hc))
      simp only [insertByKey, if_neg hpq]
      refine List.pairwise_cons.mpr ⟨?_, ih hqs⟩
      intro r hr
      have hr' := (insertByKey_perm p qs).mem_iff.mp hr
      rcases List.mem_cons.mp hr' with hr' | hr'
      · subst hr'
        exact hqle
      · exact hq r hr'

theorem sortByKey_sorted {β : Type} (l : List (String × β)) :
    (sortByKey l).Pairwise keyLE := by
  induction l with
  | nil => simp [sortByKey]
  | cons p ps ih => exact insertByKey_sorted p ih

theorem insertByKey_of_le {β : Type} (p : String × β) (l : List (String × β))
    (h : ∀ q ∈ l, p.1 ≤ q.1) : insertByKey p l = p :: l := by
  cases l with
  | nil => rfl
  | cons q qs =>
    rw [insertByKey, if_pos ((strLE_iff p.1 q.1).mpr (h q (List.mem_cons_self q qs)))]

/-- Sorting a list whose keys are already in ascending order leaves it
unchanged. -/
theorem sortByKey_of_sorted {β : Type} {l : List (String × β)}
    (h : l.Pairwise keyLE) : sortByKey l = l := by
  induction l with
  | nil => rfl
  | cons p ps ih =>
    rcases List.pairwise_cons.mp h with ⟨hp, hps⟩
    simp only [sortByKey, ih hps]
    exact insertByKey_of_le p ps hp

/-- Two key-sorted lists over the same duplicate-free multiset of pairs
are equal. -/
theorem sorted_eq_of_perm {β : Type} {l l' : List (String × β)}
    (hperm : List.Perm l l') (hs : l.Pairwise keyLE) (hs' : l'.Pairwise keyLE)
    (hnd : (l.map Prod.fst).Nodup) : l = l' := by
  induction l generalizing l' with
  | nil => exact hperm.nil_eq
  | cons a as ih =>
    cases l' with
    | nil => exact absurd hperm.symm.nil_eq (by simp)
    | cons b bs =>
      rcases List.pairwise_cons.mp hs with ⟨ha, has⟩
      rcases List.pairwise_cons.mp hs' with ⟨hb, hbs⟩
      rw [List.map_cons] at hnd
      rcases List.nodup_cons.mp hnd with ⟨hnd1, hndtail⟩
      have hab : a = b := by
        have hamem : a ∈ b :: bs := hperm.mem_iff.mp (List.mem_cons_self a as)
        have hbmem : b ∈ a :: as := hperm.symm.mem_iff.mp (List.mem_cons_self b bs)
        rcases List.mem_cons.mp hamem with h1 | h1
        · exact h1
        rcases List.mem_cons.mp hbmem with h2 | h2
        · exact h2.symm
        have hab' : a.1 ≤ b.1 := ha b h2
        have hba : b.1 ≤ a.1 := hb a h1
        have hkey : a.1 = b.1 := le_antisymm hab' hba
        exfalso
        exact hnd1 (by
          rw [hkey]
          exact List.mem_map.mpr ⟨b, h2, rfl⟩)
      subst hab
      have htail : List.Perm as bs := hperm.cons_inv
      rw [ih htail has hbs hndtail]

/-- Sorting by key is invariant under permutation of a duplicate-free
field list: this is why key insertion order is irrelevant. -/
theorem sortByKey_eq_of_perm {β : Type} {l l' : List (String × β)}
    (hperm : List.Perm l l') (hnd : (l.map Prod.fst).Nodup) :
    sortByKey l = sortByKey l' := by
  apply sorted_eq_of_perm
  · exact (sortByKey_perm l).trans (hperm.trans (sortByKey_perm l').symm)
  · exact sortByKey_sorted l
  · exact sortByKey_sorted l'
  · exact ((sortByKey_perm l).map Prod.fst).nodup_iff.mpr hnd

/-! ## The canonical serializer

`getCanonicalString` from `server/index.js` (the identical function
appears in `client/main.js`):

  primitives are emitted with `JSON.stringify`; arrays serialize
  element-wise in order, comma-joined and bracket-delimited; objects
  sort their keys ascending and emit `"key":value` pairs, comma-joined
  and brace-delimited.

The recursion descends through a sorted copy of the field list, which
is not a structural subterm, so we define the function with an explicit
fuel argument (always sufficient when instantiated with `sizeOf`) and
prove the expected recursion equations below.  This keeps the function
kernel-computable. -/

theorem jsonSize_pos (j : Json) : 0 < jsonSize j := by
  cases j <;> simp [jsonSize]

theorem jsonSize_le_of_mem {x : Json} {xs : List Json} (h : x ∈ xs) :
    jsonSize x < jsonListSize xs := by
  induction xs with
  | nil => cases h
  | cons y ys ih =>
    rcases List.mem_cons.mp h with h | h
    · subst h; simp [jsonListSize]; omega
    · have := ih h; simp [jsonListSize]; omega

theorem jsonSize_snd_le_of_mem {p : String × Json} {l : List (String × Json)}
    (h : p ∈ l) : jsonSize p.2 < jsonFieldsSize l := by
  induction l with
  | nil => cases h
  | cons q qs ih =>
    rcases List.mem_cons.mp h with h | h
    · subst h; simp [jsonFieldsSize]; omega
    · have := ih h; simp [jsonFieldsSize]; omega

theorem canonicalWithFuel_congr : ∀ (f g : Nat) (j : Json),
    jsonSize j ≤ f → jsonSize j ≤ g → canonicalWithFuel f j = canonicalWithFuel g j := by
  intro f
  induction f with
  | zero => intro g j hf _; exact absurd (lt_of_lt_of_le (jsonSize_pos j) hf) (by omega)
  | succ f ih =>
    intro g j hf hg
    cases g with
    | zero => exact absurd (lt_of_lt_of_le (jsonSize_pos j) hg) (by omega)
    | succ g =>
      cases j with
      | null => rfl
      | bool b => rfl
      | num n => rfl
      | str s => rfl
      | arr xs =>
        have hxs : jsonSize (Json.arr xs) = 1 + jsonListSize xs := rfl
        have hmap : xs.map (canonicalWithFuel f) = xs.map (canonicalWithFuel g) := by
          apply List.map_congr_left
          intro x hx
          have hlt : jsonSize x < jsonListSize xs := jsonSize_le_of_mem hx
          exact ih g x (by omega) (by omega)
        simp only [canonicalWithFuel, hmap]
      | obj l =>
        have hobj : jsonSize (Json.obj l) = 1 + jsonFieldsSize l := rfl
        have hmap :
            (sortByKey l).map (fun p => quoteString p.1 ++ ":" ++ canonicalWithFuel f p.2)
              = (sortByKey l).map (fun p => quoteString p.1 ++ ":" ++ canonicalWithFuel g p.2) := by
          apply List.map_congr_left
          intro p hp
          have hpl : p ∈ l := (sortByKey_perm l).mem_iff.mp hp
          have hlt : jsonSize p.2 < jsonFieldsSize l := jsonSize_snd_le_of_mem hpl
          rw [ih g p.2 (by omega) (by omega)]
        simp only [canonicalWithFuel, hmap]

theorem getCanonicalString_eq_fuel (j : Json) (f : Nat) (hf : jsonSize j ≤ f) :
    getCanonicalString j = canonicalWithFuel f j :=
  canonicalWithFuel_congr (jsonSize j) f j le_rfl hf

@[simp] theorem getCanonicalString_null : getCanonicalString .null = "null" := rfl

@[simp] theorem getCanonicalString_bool (b : Bool) :
    getCanonicalString (.bool b) = cond b "true" "false" := rfl

@[simp] theorem getCanonicalString_num (n : Int) :
    getCanonicalString (.num n) = toString n := rfl

@[simp] theorem getCanonicalString_str (s : String) :
    getCanonicalString (.str s) = quoteString s := rfl

@[simp] theorem getCanonicalString_arr (xs : List Json) :
    getCanonicalString (.arr xs)
      = "[" ++ String.intercalate "," (xs.map getCanonicalString) ++ "]" := by
  have h : jsonSize (Json.arr xs) = jsonListSize xs + 1 := by simp [jsonSize]; omega
  rw [getCanonicalString, h]
  simp only [canonicalWithFuel]
  have hmap : xs.map (canonicalWithFuel (jsonListSize xs)) = xs.map getCanonicalString := by
    apply List.map_congr_left
    intro x hx
    have hlt : jsonSize x < jsonListSize xs := jsonSize_le_of_mem hx
    exact (getCanonicalString_eq_fuel x (jsonListSize xs) (by omega)).symm
  rw [hmap]

@[simp] theorem getCanonicalString_obj (l : List (String × Json)) :
    getCanonicalString (.obj l)
      = "\x7b" ++ String.intercalate ","
          ((sortByKey l).map (fun p => quoteString p.1 ++ ":" ++ getCanonicalString p.2))
          ++ "\x7d" := by
  have h : jsonSize (Json.obj l) = jsonFieldsSize l + 1 := by simp [jsonSize]; omega
  rw [getCanonicalString, h]
  simp only [canonicalWithFuel]
  have hmap :
      (sortByKey l).map (fun p => quoteString p.1 ++ ":" ++ canonicalWithFuel (jsonFieldsSize l) p.2)
        = (sortByKey l).map (fun p => quoteString p.1 ++ ":" ++ getCanonicalString p.2) := by
    apply List.map_congr_left
    intro p hp
    have hpl : p ∈ l := (sortByKey_perm l).mem_iff.mp hp
    have hlt : jsonSize p.2 < jsonFieldsSize l := jsonSize_snd_le_of_mem hpl
    rw [(getCanonicalString_eq_fuel p.2 (jsonFieldsSize l) (by omega)).symm]
  rw [hmap]

/-! ## Claim C6: terminal states -/

/-- C6: for every game state whose `currentState` is one of the
terminal states `GAME_OVER_X_WINS`, `GAME_OVER_O_WINS`,
`GAME_OVER_DRAW`, and every event (an event of this system is a
nonempty event-type string together with a move payload), `transition`
returns `isValidMove = false`, the error exactly
`"Game is already over."`, no new board, and `newState` equal to the
unchanged current state. -/
theorem transition_terminal (s : GameState) (event : String) (eventData : EventData)
    (hterm : s.currentState = STATES.GAME_OVER_X_WINS ∨
      s.currentState = STATES.GAME_OVER_O_WINS ∨
      s.currentState = STATES.GAME_OVER_DRAW)
    (hev : event ≠ "") :
    transition s event eventData
      = some { newState := s.currentState, isValidMove := false, newBoard := none,
               error := some "Game is already over." } := by
  have hx : ¬ s.currentState = STATES.PLAYER_X_TURN := by
    rcases hterm with h | h | h <;> rw [h] <;> decide
  have ho : ¬ s.currentState = STATES.PLAYER_O_TURN := by
    rcases hterm with h | h | h <;> rw [h] <;> decide
  simp only [transition, if_neg hev]
  rw [transitionBody, if_neg hx, if_neg ho, if_pos hterm]

/-- Witness for `transition_terminal` at a concrete terminal state and
a concrete move event. -/
theorem transition_terminal_witness :
    (("GAME_OVER_DRAW" : String) = STATES.GAME_OVER_X_WINS ∨
     ("GAME_OVER_DRAW" : String) = STATES.GAME_OVER_O_WINS ∨
     ("GAME_OVER_DRAW" : String) = STATES.GAME_OVER_DRAW) ∧
    ("PLAYER_MOVE_ATTEMPTED" : String) ≠ "" ∧
    transition
      { currentState := "GAME_OVER_DRAW", board := blankBoard,
        playerX := "DOGE", playerO := "PEPE" }
      "PLAYER_MOVE_ATTEMPTED"
      { move := { rowIndex := 0, colIndex := 0 }, playerId := some "DOGE" }
      = some { newState := "GAME_OVER_DRAW", isValidMove := false, newBoard := none,
               error := some "Game is already over." } :=
  ⟨by decide, by decide,
    transition_terminal
      { currentState := "GAME_OVER_DRAW", board := blankBoard,
        playerX := "DOGE", playerO := "PEPE" }
      "PLAYER_MOVE_ATTEMPTED"
      { move := { rowIndex := 0, colIndex := 0 }, playerId := some "DOGE" }
      (by decide) (by decide)⟩

/-! ## Claim C4: validity of a move from a turn state -/

/-- C4: from a turn state, a `PLAYER_MOVE_ATTEMPTED` event is reported
valid iff the attempting player is the one whose turn it is, the
indices are within `[0,2]`, and the targeted cell is empty; an invalid
move leaves the state unchanged and carries an error string that
distinguishes wrong-turn from occupied/out-of-bounds. -/
theorem transition_turn_validation (s : GameState) (eventData : EventData) (mover : String)
    (hs : (s.currentState = STATES.PLAYER_X_TURN ∧ mover = s.playerX) ∨
          (s.currentState = STATES.PLAYER_O_TURN ∧ mover = s.playerO)) :
    ∃ res : TransitionResult,
      transition s EVENTS.PLAYER_MOVE_ATTEMPTED eventData = some res ∧
      (res.isValidMove = true ↔
        (eventData.playerId = some mover ∧
         0 ≤ eventData.move.rowIndex ∧ eventData.move.rowIndex ≤ 2 ∧
         0 ≤ eventData.move.colIndex ∧ eventData.move.colIndex ≤ 2 ∧
         getCell s.board eventData.move.rowIndex.toNat eventData.move.colIndex.toNat = "")) ∧
      (res.isValidMove = false → res.newState = s.currentState) ∧
      (eventData.playerId ≠ some mover →
        res.error = some (if s.currentState = STATES.PLAYER_X_TURN
          then "Not player X's turn." else "Not player O's turn.")) ∧
      (res.isValidMove = false → eventData.playerId = some mover →
        res.error = some "Invalid move: cell is occupied or out of bounds.") := by
  refine ⟨transitionBody s EVENTS.PLAYER_MOVE_ATTEMPTED eventData,
    by simp only [transition, if_neg (show ¬ EVENTS.PLAYER_MOVE_ATTEMPTED = "" by decide)], ?_⟩
  rcases hs with ⟨hturn, hm⟩ | ⟨hturn, hm⟩
  · have hxo : ¬ s.currentState = STATES.PLAYER_O_TURN := by rw [hturn]; decide
    rw [transitionBody, if_pos hturn, if_pos rfl]
    subst hm
    by_cases hpid : eventData.playerId = some s.playerX
    · rw [if_neg (not_not_intro hpid)]
      by_cases hbad : eventData.move.rowIndex < 0 ∨ eventData.move.rowIndex > 2 ∨
          eventData.move.colIndex < 0 ∨ eventData.move.colIndex > 2 ∨
          getCell s.board eventData.move.rowIndex.toNat eventData.move.colIndex.toNat ≠ ""
      · rw [if_pos hbad]
        refine ⟨?_, fun _ => rfl, fun h => absurd hpid h, fun _ _ => rfl⟩
        simp only [show (false = true) ↔ False by simp, false_iff]
        rintro ⟨-, h1, h2, h3, h4, h5⟩
        rcases hbad with h | h | h | h | h <;> [omega; omega; omega; omega; exact h h5]
      · rw [if_neg hbad]
        push_neg at hbad
        obtain ⟨b1, b2, b3, b4, b5⟩ := hbad
        dsimp only
        split_ifs <;>
          exact ⟨iff_of_true rfl ⟨hpid, by omega, by omega, by omega, by omega, b5⟩,
            fun hfalse => by simp at hfalse,
            fun h => absurd hpid h,
            fun hfalse => by simp at hfalse⟩
    · rw [if_pos hpid]
      refine ⟨?_, fun _ => rfl, fun _ => by rw [if_pos hturn], fun _ h => absurd h hpid⟩
      simp only [show (false = true) ↔ False by simp, false_iff]
      rintro ⟨h1, -⟩
      exact hpid h1
  · have hox : ¬ s.currentState = STATES.PLAYER_X_TURN := by rw [hturn]; decide
    rw [transitionBody, if_neg hox, if_pos hturn, if_pos rfl]
    subst hm
    by_cases hpid : eventData.playerId = some s.playerO
    · rw [if_neg (not_not_intro hpid)]
      by_cases hbad : eventData.move.rowIndex < 0 ∨ eventData.move.rowIndex > 2 ∨
          eventData.move.colIndex < 0 ∨ eventData.move.colIndex > 2 ∨
          getCell s.board eventData.move.rowIndex.toNat eventData.move.colIndex.toNat ≠ ""
      · rw [if_pos hbad]
        refine ⟨?_, fun _ => rfl, fun h => absurd hpid h, fun _ _ => rfl⟩
        simp only [show (false = true) ↔ False by simp, false_iff]
        rintro ⟨-, h1, h2, h3, h4, h5⟩
        rcases hbad with h | h | h | h | h <;> [omega; omega; omega; omega; exact h h5]
      · rw [if_neg hbad]
        push_neg at hbad
        obtain ⟨b1, b2, b3, b4, b5⟩ := hbad
        dsimp only
        split_ifs <;>
          exact ⟨iff_of_true rfl ⟨hpid, by omega, by omega, by omega, by omega, b5⟩,
            fun hfalse => by simp at hfalse,
            fun h => absurd hpid h,
            fun hfalse => by simp at hfalse⟩
    · rw [if_pos hpid]
      refine ⟨?_, fun _ => rfl, fun _ => by rw [if_neg hox], fun _ h => absurd h hpid⟩
      simp only [show (false = true) ↔ False by simp, false_iff]
      rintro ⟨h1, -⟩
      exact hpid h1

/-- Witness for `transition_turn_validation`: player X moves first into
the empty corner of a fresh board, and the move is reported valid. -/
theorem transition_turn_validation_witness :
    ((getInitialGameState "DOGE" "PEPE").currentState = STATES.PLAYER_X_TURN ∧
      "DOGE" = (getInitialGameState "DOGE" "PEPE").playerX) ∧
    ∃ res : TransitionResult,
      transition (getInitialGameState "DOGE" "PEPE") EVENTS.PLAYER_MOVE_ATTEMPTED
        { move := { rowIndex := 0, colIndex := 0 }, playerId := some "DOGE" } = some res ∧
      (res.isValidMove = true ↔
        ((some "DOGE" : Option String) = some "DOGE" ∧
         (0 : Int) ≤ 0 ∧ (0 : Int) ≤ 2 ∧ (0 : Int) ≤ 0 ∧ (0 : Int) ≤ 2 ∧
         getCell (getInitialGameState "DOGE" "PEPE").board 0 0 = "")) ∧
      (res.isValidMove = false → res.newState = (getInitialGameState "DOGE" "PEPE").currentState) ∧
      ((some "DOGE" : Option String) ≠ some "DOGE" →
        res.error = some (if (getInitialGameState "DOGE" "PEPE").currentState = STATES.PLAYER_X_TURN
          then "Not player X's turn." else "Not player O's turn.")) ∧
      (res.isValidMove = false → (some "DOGE" : Option String) = some "DOGE" →
        res.error = some "Invalid move: cell is occupied or out of bounds.") :=
  ⟨⟨rfl, rfl⟩,
    transition_turn_validation (getInitialGameState "DOGE" "PEPE")
      { move := { rowIndex := 0, colIndex := 0 }, playerId := some "DOGE" } "DOGE"
      (Or.inl ⟨rfl, rfl⟩)⟩

/-! ## Claim C5: outcome of a valid move -/

/-- C5: a valid move places the mover's symbol on a clone of the board;
the new state is the mover's win state iff `checkWin` finds one of the
8 fixed triples filled with the mover's symbol on the post-move board,
otherwise the draw state iff no empty cell remains (`checkDraw`),
otherwise the other player's turn state. -/
theorem transition_valid_outcome (s : GameState) (eventData : EventData)
    (sym winState otherTurn : String) (res : TransitionResult)
    (hs : (s.currentState = STATES.PLAYER_X_TURN ∧ sym = "X" ∧
            winState = STATES.GAME_OVER_X_WINS ∧ otherTurn = STATES.PLAYER_O_TURN) ∨
          (s.currentState = STATES.PLAYER_O_TURN ∧ sym = "O" ∧
            winState = STATES.GAME_OVER_O_WINS ∧ otherTurn = STATES.PLAYER_X_TURN))
    (hres : transition s EVENTS.PLAYER_MOVE_ATTEMPTED eventData = some res)
    (hv : res.isValidMove = true) :
    res.newBoard = some (setCell (cloneBoard s.board)
        eventData.move.rowIndex.toNat eventData.move.colIndex.toNat sym) ∧
    (res.newState = winState ↔
      checkWin (setCell (cloneBoard s.board)
        eventData.move.rowIndex.toNat eventData.move.colIndex.toNat sym) sym = true) ∧
    (checkWin (setCell (cloneBoard s.board)
        eventData.move.rowIndex.toNat eventData.move.colIndex.toNat sym) sym = false →
      (res.newState = STATES.GAME_OVER_DRAW ↔
        checkDraw (setCell (cloneBoard s.board)
          eventData.move.rowIndex.toNat eventData.move.colIndex.toNat sym) = true)) ∧
    (checkWin (setCell (cloneBoard s.board)
        eventData.move.rowIndex.toNat eventData.move.colIndex.toNat sym) sym = false →
      checkDraw (setCell (cloneBoard s.board)
        eventData.move.rowIndex.toNat eventData.move.colIndex.toNat sym) = false →
      res.newState = otherTurn) := by
  have hbody : res = transitionBody s EVENTS.PLAYER_MOVE_ATTEMPTED eventData := by
    have := hres
    simp only [transition, if_neg (show ¬ EVENTS.PLAYER_MOVE_ATTEMPTED = "" by decide)] at this
    exact (Option.some.injEq _ _ ▸ this).symm
  subst hbody
  rcases hs with ⟨hturn, hsym, hwin, hother⟩ | ⟨hturn, hsym, hwin, hother⟩ <;>
    subst hsym <;> subst hwin <;> subst hother
  · rw [transitionBody, if_pos hturn, if_pos rfl] at hv ⊢
    by_cases hpid : eventData.playerId ≠ some s.playerX
    · rw [if_pos hpid] at hv; cases hv
    · rw [if_neg hpid] at hv ⊢
      by_cases hbad : eventData.move.rowIndex < 0 ∨ eventData.move.rowIndex > 2 ∨
          eventData.move.colIndex < 0 ∨ eventData.move.colIndex > 2 ∨
          getCell s.board eventData.move.rowIndex.toNat eventData.move.colIndex.toNat ≠ ""
      · rw [if_pos hbad] at hv; cases hv
      · rw [if_neg hbad] at hv ⊢
        dsimp only at hv ⊢
        split_ifs with hw hd
        · refine ⟨rfl, iff_of_true rfl hw, ?_, ?_⟩ <;> intro h <;> rw [hw] at h <;> cases h
        · have hw' : checkWin (setCell (cloneBoard s.board)
              eventData.move.rowIndex.toNat eventData.move.colIndex.toNat "X") "X" = false :=
            Bool.not_eq_true _ ▸ (by simpa using hw)
          refine ⟨rfl, ?_, fun _ => iff_of_true rfl hd, fun _ h => ?_⟩
          · constructor
            · intro h
              simp [STATES.GAME_OVER_X_WINS, STATES.GAME_OVER_O_WINS, STATES.GAME_OVER_DRAW,
                STATES.PLAYER_X_TURN, STATES.PLAYER_O_TURN] at h
            · intro h; rw [h] at hw'; cases hw'
          · rw [hd] at h; cases h
        · have hw' : checkWin (setCell (cloneBoard s.board)
              eventData.move.rowIndex.toNat eventData.move.colIndex.toNat "X") "X" = false :=
            Bool.not_eq_true _ ▸ (by simpa using hw)
          have hd' : checkDraw (setCell (cloneBoard s.board)
              eventData.move.rowIndex.toNat eventData.move.colIndex.toNat "X") = false :=
            Bool.not_eq_true _ ▸ (by simpa using hd)
          refine ⟨rfl, ?_, fun _ => ?_, fun _ _ => rfl⟩
          · constructor
            · intro h
              simp [STATES.GAME_OVER_X_WINS, STATES.GAME_OVER_O_WINS, STATES.GAME_OVER_DRAW,
                STATES.PLAYER_X_TURN, STATES.PLAYER_O_TURN] at h
            · intro h; rw [h] at hw'; cases hw'
          · constructor
            · intro h
              simp [STATES.GAME_OVER_X_WINS, STATES.GAME_OVER_O_WINS, STATES.GAME_OVER_DRAW,
                STATES.PLAYER_X_TURN, STATES.PLAYER_O_TURN] at h
            · intro h; rw [h] at hd'; cases hd'
  · rw [transitionBody, if_neg (show ¬ s.currentState = STATES.PLAYER_X_TURN by
        rw [hturn]; decide), if_pos hturn, if_pos rfl] at hv ⊢
    by_cases hpid : eventData.playerId ≠ some s.playerO
    · rw [if_pos hpid] at hv; cases hv
    · rw [if_neg hpid] at hv ⊢
      by_cases hbad : eventData.move.rowIndex < 0 ∨ eventData.move.rowIndex > 2 ∨
          eventData.move.colIndex < 0 ∨ eventData.move.colIndex > 2 ∨
          getCell s.board eventData.move.rowIndex.toNat eventData.move.colIndex.toNat ≠ ""
      · rw [if_pos hbad] at hv; cases hv
      · rw [if_neg hbad] at hv ⊢
        dsimp only at hv ⊢
        split_ifs with hw hd
        · refine ⟨rfl, iff_of_true rfl hw, ?_, ?_⟩ <;> intro h <;> rw [hw] at h <;> cases h
        · have hw' : checkWin (setCell (cloneBoard s.board)
              eventData.move.rowIndex.toNat eventData.move.colIndex.toNat "O") "O" = false :=
            Bool.not_eq_true _ ▸ (by simpa using hw)
          refine ⟨rfl, ?_, fun _ => iff_of_true rfl hd, fun _ h => ?_⟩
          · constructor
            · intro h
              simp [STATES.GAME_OVER_X_WINS, STATES.GAME_OVER_O_WINS, STATES.GAME_OVER_DRAW,
                STATES.PLAYER_X_TURN, STATES.PLAYER_O_TURN] at h
            · intro h; rw [h] at hw'; cases hw'
          · rw [hd] at h; cases h
        · have hw' : checkWin (setCell (cloneBoard s.board)
              eventData.move.rowIndex.toNat eventData.move.colIndex.toNat "O") "O" = false :=
            Bool.not_eq_true _ ▸ (by simpa using hw)
          have hd' : checkDraw (setCell (cloneBoard s.board)
              eventData.move.rowIndex.toNat eventData.move.colIndex.toNat "O") = false :=
            Bool.not_eq_true _ ▸ (by simpa using hd)
          refine ⟨rfl, ?_, fun _ => ?_, fun _ _ => rfl⟩
          · constructor
            · intro h
              simp [STATES.GAME_OVER_X_WINS, STATES.GAME_OVER_O_WINS, STATES.GAME_OVER_DRAW,
                STATES.PLAYER_X_TURN, STATES.PLAYER_O_TURN] at h
            · intro h; rw [h] at hw'; cases hw'
          · constructor
            · intro h
              simp [STATES.GAME_OVER_X_WINS, STATES.GAME_OVER_O_WINS, STATES.GAME_OVER_DRAW,
                STATES.PLAYER_X_TURN, STATES.PLAYER_O_TURN] at h
            · intro h; rw [h] at hd'; cases hd'

/-- Witness for `transition_valid_outcome`: X completes the top row and
the result is `GAME_OVER_X_WINS`. -/
theorem transition_valid_outcome_witness :
    ∃ res : TransitionResult,
      (let s : GameState :=
        { currentState := "PLAYER_X_TURN",
          board := { c00 := "X", c01 := "X", c02 := "",
                     c10 := "O", c11 := "O", c12 := "",
                     c20 := "", c21 := "", c22 := "" },
          playerX := "DOGE", playerO := "PEPE" }
       transition s EVENTS.PLAYER_MOVE_ATTEMPTED
          { move := { rowIndex := 0, colIndex := 2 }, playerId := some "DOGE" } = some res ∧
        res.isValidMove = true ∧
        res.newState = STATES.GAME_OVER_X_WINS ∧
        checkWin (setCell (cloneBoard s.board) 0 2 "X") "X" = true ∧
        (res.newState = STATES.GAME_OVER_X_WINS ↔
          checkWin (setCell (cloneBoard s.board) 0 2 "X") "X" = true)) := by
  refine ⟨transitionBody
    { currentState := "PLAYER_X_TURN",
      board := { c00 := "X", c01 := "X", c02 := "",
                 c10 := "O", c11 := "O", c12 := "",
                 c20 := "", c21 := "", c22 := "" },
      playerX := "DOGE", playerO := "PEPE" }
    EVENTS.PLAYER_MOVE_ATTEMPTED
    { move := { rowIndex := 0, colIndex := 2 }, playerId := some "DOGE" }, ?_⟩
  refine ⟨by decide, by decide, by decide, by decide, ?_⟩
  exact (transition_valid_outcome _
    { move := { rowIndex := 0, colIndex := 2 }, playerId := some "DOGE" }
    "X" STATES.GAME_OVER_X_WINS STATES.PLAYER_O_TURN _
    (Or.inl ⟨rfl, rfl, rfl, rfl⟩) (by decide) (by decide)).2.1

/-! ## Claim C2: the hash-chain verifier -/

theorem verifyHashChainGo_true_iff (H : String → String) :
    ∀ (l : List LogEntry) (prev : String),
      verifyHashChainGo H prev l = true ↔
        ((∀ e0, l.head? = some e0 → e0.previousEntryChainHash = prev) ∧
         (∀ i e1 e2, l.get? i = some e1 → l.get? (i + 1) = some e2 →
           e2.previousEntryChainHash = e1.currentEntryChainHash) ∧
         (∀ e ∈ l, calculateEntryHash H e = e.currentEntryChainHash)) := by
  intro l
  induction l with
  | nil =>
    intro prev
    simp [verifyHashChainGo]
  | cons e l ih =>
    intro prev
    rw [verifyHashChainGo]
    by_cases h1 : e.previousEntryChainHash = prev
    · rw [if_neg (not_not_intro h1)]
      by_cases h2 : calculateEntryHash H e = e.currentEntryChainHash
      · rw [if_neg (not_not_intro h2), ih e.currentEntryChainHash]
        constructor
        · rintro ⟨ha, hb, hc⟩
          refine ⟨?_, ?_, ?_⟩
          · intro e0 he0
            rw [List.head?_cons] at he0
            cases he0
            exact h1
          · intro i e1 e2 he1 he2
            cases i with
            | zero =>
              rw [List.get?_cons_zero] at he1
              cases he1
              rw [List.get?_cons_succ, List.get?_zero] at he2
              exact ha e2 he2
            | succ k =>
              rw [List.get?_cons_succ] at he1 he2
              exact hb k e1 e2 he1 he2
          · intro x hx
            rcases List.mem_cons.mp hx with hx | hx
            · subst hx; exact h2
            · exact hc x hx
        · rintro ⟨ha, hb, hc⟩
          refine ⟨?_, ?_, ?_⟩
          · intro e0 he0
            refine hb 0 e e0 (List.get?_cons_zero) ?_
            rw [List.get?_cons_succ, List.get?_zero]
            exact he0
          · intro i e1 e2 he1 he2
            exact hb (i + 1) e1 e2 (by rw [List.get?_cons_succ]; exact he1)
              (by rw [List.get?_cons_succ]; exact he2)
          · intro x hx
            exact hc x (List.mem_cons_of_mem e hx)
      · rw [if_pos h2]
        simp only [Bool.false_eq_true, false_iff]
        rintro ⟨-, -, hc⟩
        exact h2 (hc e (List.mem_cons_self e l))
    · rw [if_pos h1]
      simp only [Bool.false_eq_true, false_iff]
      rintro ⟨ha, -, -⟩
      exact h1 (ha e (by rw [List.head?_cons]))

theorem verifyHashChainGo_stops (H : String → String) :
    ∀ (l : List LogEntry) (prev : String) (j : Nat),
      (∀ i, i < j → ¬ chainViolationAt H prev l i) →
      chainViolationAt H prev l j →
      ∀ rest, verifyHashChainGo H prev (l.take (j + 1) ++ rest) = false := by
  intro l
  induction l with
  | nil =>
    intro prev j _ hviol rest
    rcases hviol with ⟨e, he, -⟩
    simp at he
  | cons e l ih =>
    intro prev j hprior hviol rest
    cases j with
    | zero =>
      rcases hviol with ⟨e0, he0, hbad⟩
      rw [List.get?_cons_zero] at he0
      cases he0
      rw [List.take_succ_cons, List.take_zero, List.cons_append, List.nil_append,
        verifyHashChainGo]
      rcases hbad with hb | hb
      · rw [if_pos (by
          intro hc
          exact hb (by rw [hc]; rfl))]
      · by_cases hl : e.previousEntryChainHash = prev
        · rw [if_neg (not_not_intro hl), if_pos hb]
        · rw [if_pos hl]
    | succ k =>
      have h0 : ¬ chainViolationAt H prev (e :: l) 0 := hprior 0 (Nat.succ_pos k)
      have h1 : e.previousEntryChainHash = prev := by
        by_contra hne
        exact h0 ⟨e, List.get?_cons_zero, Or.inl (by
          intro hc
          exact hne (Option.some.inj hc))⟩
      have h2 : calculateEntryHash H e = e.currentEntryChainHash := by
        by_contra hne
        exact h0 ⟨e, List.get?_cons_zero, Or.inr hne⟩
      have hshift : ∀ i, chainViolationAt H prev (e :: l) (i + 1) ↔
          chainViolationAt H e.currentEntryChainHash l i := by
        intro i
        unfold chainViolationAt
        cases i with
        | zero => simp [chainPrevAt, List.get?_cons_succ, List.get?_cons_zero]
        | succ m => simp [chainPrevAt, List.get?_cons_succ]
      rw [List.take_succ_cons, List.cons_append, verifyHashChainGo,
        if_neg (not_not_intro h1), if_neg (not_not_intro h2)]
      exact ih e.currentEntryChainHash k
        (fun i hik hv => hprior (i + 1) (by omega) ((hshift i).mpr hv))
        ((hshift k).mp hviol) rest

/-- C2: `verifyHashChain` returns true iff entry 0 (when present) links
to the 64-zero hash, every later entry links to its predecessor's
stored `currentEntryChainHash`, and every entry's stored
`currentEntryChainHash` equals the digest of the canonical
serialization of the entry without that field; moreover it returns
false at the first violated entry and processes no entry after it (the
result is false no matter what follows that entry). -/
theorem verifyHashChain_characterization (H : String → String) (gameLog : List LogEntry) :
    (verifyHashChain H gameLog = true ↔
      ((∀ e0, gameLog.head? = some e0 → e0.previousEntryChainHash = zeroHash) ∧
       (∀ i e1 e2, gameLog.get? i = some e1 → gameLog.get? (i + 1) = some e2 →
         e2.previousEntryChainHash = e1.currentEntryChainHash) ∧
       (∀ e ∈ gameLog, calculateEntryHash H e = e.currentEntryChainHash))) ∧
    (∀ j, (∀ i, i < j → ¬ chainViolationAt H zeroHash gameLog i) →
      chainViolationAt H zeroHash gameLog j →
      ∀ rest, verifyHashChain H (gameLog.take (j + 1) ++ rest) = false) :=
  ⟨verifyHashChainGo_true_iff H gameLog zeroHash,
   fun j hj hv rest => verifyHashChainGo_stops H gameLog zeroHash j hj hv rest⟩

/-! ## Claim C10: the empty log -/

/-- C10: on the empty log, `verifyFsmGameplay` does not return a
boolean: the final-entry access `gameLog[gameLog.length - 1]` yields
`undefined` and the subsequent `.eventType` access throws (modelled by
`none`), so non-emptiness of the log is an implicit precondition. -/
theorem verifyFsmGameplay_empty (H : String → String) (playerX_Id playerO_Id : String) :
    verifyFsmGameplay H [] playerX_Id playerO_Id = none := rfl

/-! ## Claim C1: the terminal-entry check -/

/-- C1 counterexample: a log whose single (hence last) entry is the
`GAME_CREATED` entry — whose `eventType` is neither `GAME_WON` nor
`GAME_DRAWN` — is *accepted* by `verifyFsmGameplay`, because the
terminal check only tests the name prefix `GAME_` and `GAME_CREATED`
carries it; the claim says such a log is rejected. -/
theorem verifyFsmGameplay_accepts_game_created_final :
    [gameCreatedEntry].getLast? = some gameCreatedEntry ∧
    gameCreatedEntry.eventType = "GAME_CREATED" ∧
    ("GAME_CREATED" : String) ≠ "GAME_WON" ∧
    ("GAME_CREATED" : String) ≠ "GAME_DRAWN" ∧
    verifyFsmGameplay (fun s => s) [gameCreatedEntry] "DOGE" "PEPE" = some true :=
  ⟨rfl, rfl, by decide, by decide, rfl⟩

/-- C1 amended: the terminal check of `verifyFsmGameplay` is the
*name-prefix* test `eventType.startsWith("GAME_")`: for every nonempty
log whose last entry's event type does not start with `GAME_` (for
example a trailing `PLAYER_MOVE_VALIDATED`), whenever the verifier
returns a boolean that boolean is `false`, even if every replayed move
was legal.  (Event types that merely carry the prefix, such as
`GAME_CREATED`, pass the terminal-event check and are rejected only if
the recorded `fsmState` disagrees with the replayed state.) -/
theorem verifyFsmGameplay_rejects_nongame_final (H : String → String)
    (gameLog : List LogEntry) (playerX_Id playerO_Id : String) (e : LogEntry) (b : Bool)
    (hlast : gameLog.getLast? = some e)
    (hev : jsStartsWith e.eventType "GAME_" = false)
    (hres : verifyFsmGameplay H gameLog playerX_Id playerO_Id = some b) :
    b = false := by
  rw [verifyFsmGameplay] at hres
  cases h1 : replayMoves H (getInitialGameState playerX_Id playerO_Id)
      (gameLog.filter (fun entry => entry.eventType == "PLAYER_MOVE_VALIDATED")) with
  | none => rw [h1] at hres; cases hres
  | some out =>
    rw [h1] at hres
    cases out with
    | rejected => exact (Option.some.inj hres).symm
    | ok serverGameState =>
      rw [hlast] at hres
      dsimp only at hres
      rw [if_pos (show ¬ jsStartsWith e.eventType "GAME_" = true by
        rw [hev]; exact Bool.false_ne_true)] at hres
      exact (Option.some.inj hres).symm

set_option maxRecDepth 40000 in
/-- Witness for `verifyFsmGameplay_rejects_nongame_final`: a log whose
single entry is a correctly replayable `PLAYER_MOVE_VALIDATED` entry is
rejected on the terminal check. -/
theorem verifyFsmGameplay_rejects_nongame_final_witness :
    [pmvEntry].getLast? = some pmvEntry ∧
    jsStartsWith pmvEntry.eventType "GAME_" = false ∧
    verifyFsmGameplay (fun s => s) [pmvEntry] "DOGE" "PEPE" = some false ∧
    false = false :=
  ⟨rfl, rfl, rfl,
    verifyFsmGameplay_rejects_nongame_final (fun s => s) [pmvEntry] "DOGE" "PEPE"
      pmvEntry false rfl rfl rfl⟩

/-! ## Claim C3: the replay loop -/

theorem transitionBody_valid_newBoard (s : GameState) (event : String) (eventData : EventData)
    (hv : (transitionBody s event eventData).isValidMove = true) :
    ∃ nb, (transitionBody s event eventData).newBoard = some nb := by
  rw [transitionBody] at hv ⊢
  dsimp only at hv ⊢
  split_ifs at hv ⊢ <;>
    first
      | exact ⟨_, rfl⟩
      | simp at hv
      | simp [noTransitionResult] at hv

theorem replayMoves_append (H : String → String) (l1 l2 : List LogEntry) :
    ∀ st, replayMoves H st (l1 ++ l2) =
      match replayMoves H st l1 with
      | some (.ok st2) => replayMoves H st2 l2
      | some .rejected => some .rejected
      | none => none := by
  induction l1 with
  | nil =>
    intro st
    simp only [List.nil_append, replayMoves]
  | cons e l ih =>
    intro st
    simp only [List.cons_append, replayMoves]
    cases extractEventData e with
    | none => rfl
    | some ed =>
      dsimp only
      cases transition st EVENTS.PLAYER_MOVE_ATTEMPTED ed with
      | none => rfl
      | some res =>
        dsimp only
        by_cases h1 : (!res.isValidMove) = true
        · rw [if_pos h1, if_pos h1]
        · rw [if_neg h1, if_neg h1]
          by_cases h2 : res.newState ≠ e.fsmState
          · rw [if_pos h2, if_pos h2]
          · rw [if_neg h2, if_neg h2]
            cases res.newBoard with
            | none => rfl
            | some nb =>
              dsimp only
              by_cases h3 : H (getCanonicalString (boardToJson nb))
                  ≠ H (getCanonicalString e.boardState)
              · rw [if_pos h3, if_pos h3]
              · rw [if_neg h3, if_neg h3]
                exact ih _

/-- C3: `verifyFsmGameplay` replays exactly the log's
`PLAYER_MOVE_VALIDATED` entries, in order, starting from
`getInitialGameState playerX_Id playerO_Id`, and returns `false` as
soon as a replayed entry fails one of the three checks: the server FSM
rejects the move, the recorded `fsmState` differs from the transition's
`newState`, or the digest of the canonical serialization of the
transition's new board differs from that of the recorded `boardState`.
The hypotheses say that `e` is the first validated entry (position `k`
of the filtered list) whose replay fails a check; the conclusion holds
whatever the log contains after that entry. -/
theorem verifyFsmGameplay_rejects_at_first_bad_move (H : String → String)
    (gameLog : List LogEntry) (playerX_Id playerO_Id : String)
    (k : Nat) (e : LogEntry) (stk : GameState) (eventData : EventData)
    (res : TransitionResult)
    (hk : (gameLog.filter (fun entry => entry.eventType == "PLAYER_MOVE_VALIDATED")).get? k
      = some e)
    (hsteps : replayMoves H (getInitialGameState playerX_Id playerO_Id)
      ((gameLog.filter (fun entry => entry.eventType == "PLAYER_MOVE_VALIDATED")).take k)
      = some (.ok stk))
    (hex : extractEventData e = some eventData)
    (ht : transition stk EVENTS.PLAYER_MOVE_ATTEMPTED eventData = some res)
    (hfail : res.isValidMove = false ∨ res.newState ≠ e.fsmState ∨
      (∀ nb, res.newBoard = some nb →
        H (getCanonicalString (boardToJson nb)) ≠ H (getCanonicalString e.boardState))) :
    verifyFsmGameplay H gameLog playerX_Id playerO_Id = some false := by
  set vs := gameLog.filter (fun entry => entry.eventType == "PLAYER_MOVE_VALIDATED") with hvs
  have hlt : k < vs.length := (List.get?_eq_some.mp hk).1
  have hsplit : vs = vs.take k ++ (e :: vs.drop (k + 1)) := by
    conv_lhs => rw [← List.take_append_drop k vs]
    congr 1
    rw [List.drop_eq_get_cons hlt]
    congr 1
    have hkeq := List.get?_eq_get hlt
    rw [hkeq] at hk
    exact (Option.some.inj hk)
  have hres_body : res = transitionBody stk EVENTS.PLAYER_MOVE_ATTEMPTED eventData := by
    have ht' := ht
    rw [transition, if_neg (show ¬ EVENTS.PLAYER_MOVE_ATTEMPTED = "" by decide)] at ht'
    exact (Option.some.inj ht').symm
  have hrm : replayMoves H (getInitialGameState playerX_Id playerO_Id) vs
      = some .rejected := by
    rw [hsplit, replayMoves_append H (vs.take k) (e :: vs.drop (k + 1)), hsteps]
    dsimp only
    rw [replayMoves, hex]
    dsimp only
    rw [ht]
    dsimp only
    rcases hfail with hf | hf | hf
    · rw [if_pos (by rw [hf]; rfl)]
    · by_cases hvalid : (!res.isValidMove) = true
      · rw [if_pos hvalid]
      · rw [if_neg hvalid, if_pos hf]
    · by_cases hvalid : (!res.isValidMove) = true
      · rw [if_pos hvalid]
      · by_cases hstate : res.newState ≠ e.fsmState
        · rw [if_neg hvalid, if_pos hstate]
        · rw [if_neg hvalid, if_neg hstate]
          have hvt : res.isValidMove = true := by
            cases hb : res.isValidMove
            · rw [hb] at hvalid; simp at hvalid
            · rfl
          obtain ⟨nb, hnb⟩ := transitionBody_valid_newBoard stk
            EVENTS.PLAYER_MOVE_ATTEMPTED eventData (by rw [← hres_body]; exact hvt)
          rw [← hres_body] at hnb
          rw [hnb]
          dsimp only
          rw [if_pos (hf nb hnb)]
  rw [verifyFsmGameplay, ← hvs, hrm]

set_option maxRecDepth 40000 in
/-- Witness for `verifyFsmGameplay_rejects_at_first_bad_move`: a log
whose first validated entry claims O moved first is rejected — the
server FSM reports the replayed move invalid. -/
theorem verifyFsmGameplay_rejects_at_first_bad_move_witness :
    (([wrongTurnEntry].filter (fun entry => entry.eventType == "PLAYER_MOVE_VALIDATED")).get? 0
      = some wrongTurnEntry) ∧
    replayMoves (fun s => s) (getInitialGameState "DOGE" "PEPE")
      (([wrongTurnEntry].filter (fun entry => entry.eventType == "PLAYER_MOVE_VALIDATED")).take 0)
      = some (.ok (getInitialGameState "DOGE" "PEPE")) ∧
    extractEventData wrongTurnEntry
      = some { move := { rowIndex := 0, colIndex := 0 }, playerId := some "PEPE" } ∧
    transition (getInitialGameState "DOGE" "PEPE") EVENTS.PLAYER_MOVE_ATTEMPTED
        { move := { rowIndex := 0, colIndex := 0 }, playerId := some "PEPE" }
      = some (transitionBody (getInitialGameState "DOGE" "PEPE") EVENTS.PLAYER_MOVE_ATTEMPTED
        { move := { rowIndex := 0, colIndex := 0 }, playerId := some "PEPE" }) ∧
    (transitionBody (getInitialGameState "DOGE" "PEPE") EVENTS.PLAYER_MOVE_ATTEMPTED
        { move := { rowIndex := 0, colIndex := 0 }, playerId := some "PEPE" }).isValidMove
      = false ∧
    verifyFsmGameplay (fun s => s) [wrongTurnEntry] "DOGE" "PEPE" = some false :=
  ⟨rfl, rfl, rfl, rfl, rfl,
    verifyFsmGameplay_rejects_at_first_bad_move (fun s => s) [wrongTurnEntry] "DOGE" "PEPE" 0
      wrongTurnEntry (getInitialGameState "DOGE" "PEPE")
      { move := { rowIndex := 0, colIndex := 0 }, playerId := some "PEPE" }
      (transitionBody (getInitialGameState "DOGE" "PEPE") EVENTS.PLAYER_MOVE_ATTEMPTED
        { move := { rowIndex := 0, colIndex := 0 }, playerId := some "PEPE" })
      rfl rfl rfl rfl (Or.inl rfl)⟩

/-! ## Claim C8: key-order independence of the canonical serializer -/

theorem normalizeWithFuel_congr : ∀ (f g : Nat) (j : Json),
    jsonSize j ≤ f → jsonSize j ≤ g → normalizeWithFuel f j = normalizeWithFuel g j := by
  intro f
  induction f with
  | zero => intro g j hf _; exact absurd (lt_of_lt_of_le (jsonSize_pos j) hf) (by omega)
  | succ f ih =>
    intro g j hf hg
    cases g with
    | zero => exact absurd (lt_of_lt_of_le (jsonSize_pos j) hg) (by omega)
    | succ g =>
      cases j with
      | null => rfl
      | bool b => rfl
      | num n => rfl
      | str s => rfl
      | arr xs =>
        have hxs : jsonSize (Json.arr xs) = 1 + jsonListSize xs := rfl
        have hmap : xs.map (normalizeWithFuel f) = xs.map (normalizeWithFuel g) := by
          apply List.map_congr_left
          intro x hx
          have hlt : jsonSize x < jsonListSize xs := jsonSize_le_of_mem hx
          exact ih g x (by omega) (by omega)
        simp only [normalizeWithFuel, hmap]
      | obj l =>
        have hobj : jsonSize (Json.obj l) = 1 + jsonFieldsSize l := rfl
        have hmap :
            (sortByKey l).map (fun p => (p.1, normalizeWithFuel f p.2))
              = (sortByKey l).map (fun p => (p.1, normalizeWithFuel g p.2)) := by
          apply List.map_congr_left
          intro p hp
          have hpl : p ∈ l := (sortByKey_perm l).mem_iff.mp hp
          have hlt : jsonSize p.2 < jsonFieldsSize l := jsonSize_snd_le_of_mem hpl
          rw [ih g p.2 (by omega) (by omega)]
        simp only [normalizeWithFuel, hmap]

theorem normalizeJson_eq_fuel (j : Json) (f : Nat) (hf : jsonSize j ≤ f) :
    normalizeJson j = normalizeWithFuel f j :=
  normalizeWithFuel_congr (jsonSize j) f j le_rfl hf

theorem normalizeJson_arr (xs : List Json) :
    normalizeJson (.arr xs) = .arr (xs.map normalizeJson) := by
  have h : jsonSize (Json.arr xs) = jsonListSize xs + 1 := by simp [jsonSize]; omega
  rw [normalizeJson, h]
  simp only [normalizeWithFuel]
  congr 1
  apply List.map_congr_left
  intro x hx
  have hlt : jsonSize x < jsonListSize xs := jsonSize_le_of_mem hx
  exact (normalizeJson_eq_fuel x (jsonListSize xs) (by omega)).symm

theorem normalizeJson_obj (l : List (String × Json)) :
    normalizeJson (.obj l) = .obj ((sortByKey l).map (fun p => (p.1, normalizeJson p.2))) := by
  have h : jsonSize (Json.obj l) = jsonFieldsSize l + 1 := by simp [jsonSize]; omega
  rw [normalizeJson, h]
  simp only [normalizeWithFuel]
  congr 1
  apply List.map_congr_left
  intro p hp
  have hpl : p ∈ l := (sortByKey_perm l).mem_iff.mp hp
  have hlt : jsonSize p.2 < jsonFieldsSize l := jsonSize_snd_le_of_mem hpl
  rw [(normalizeJson_eq_fuel p.2 (jsonFieldsSize l) (by omega)).symm]

theorem canonical_normalize : ∀ (n : Nat) (j : Json), jsonSize j ≤ n →
    getCanonicalString (normalizeJson j) = getCanonicalString j := by
  intro n
  induction n with
  | zero => intro j h; exact absurd (lt_of_lt_of_le (jsonSize_pos j) h) (by omega)
  | succ n ih =>
    intro j hle
    cases j with
    | null => rfl
    | bool b => rfl
    | num m => rfl
    | str s => rfl
    | arr xs =>
      rw [normalizeJson_arr, getCanonicalString_arr, getCanonicalString_arr, List.map_map]
      have hmap : xs.map (getCanonicalString ∘ normalizeJson) = xs.map getCanonicalString := by
        apply List.map_congr_left
        intro x hx
        have hlt : jsonSize x < jsonListSize xs := jsonSize_le_of_mem hx
        have hxs : jsonSize (Json.arr xs) = 1 + jsonListSize xs := rfl
        exact ih x (by omega)
      rw [hmap]
    | obj l =>
      rw [normalizeJson_obj, getCanonicalString_obj, getCanonicalString_obj]
      have hsorted : ((sortByKey l).map (fun p => (p.1, normalizeJson p.2))).Pairwise keyLE := by
        rw [List.pairwise_map]
        exact (sortByKey_sorted l).imp (fun h => h)
      rw [sortByKey_of_sorted hsorted, List.map_map]
      have hmap :
          (sortByKey l).map
              ((fun p => quoteString p.1 ++ ":" ++ getCanonicalString p.2)
                ∘ (fun p => (p.1, normalizeJson p.2)))
            = (sortByKey l).map (fun p => quoteString p.1 ++ ":" ++ getCanonicalString p.2) := by
        apply List.map_congr_left
        intro p hp
        have hpl : p ∈ l := (sortByKey_perm l).mem_iff.mp hp
        have hlt : jsonSize p.2 < jsonFieldsSize l := jsonSize_snd_le_of_mem hpl
        have hobj : jsonSize (Json.obj l) = 1 + jsonFieldsSize l := rfl
        simp only [Function.comp]
        rw [ih p.2 (by omega)]
      rw [hmap]

/-- C8: the canonical serializer is deterministic (it is a function)
and insertion-order independent: two JSON trees that agree up to the
order of object fields — equivalently, with the same recursive
key-sorted normalization — produce the identical canonical string,
and permuting a duplicate-free field list of an object never changes
its canonical string, because keys are re-sorted before emission. -/
theorem getCanonicalString_key_order_independent :
    (∀ a b : Json, normalizeJson a = normalizeJson b →
      getCanonicalString a = getCanonicalString b) ∧
    (∀ l l' : List (String × Json), List.Perm l l' → (l.map Prod.fst).Nodup →
      getCanonicalString (.obj l) = getCanonicalString (.obj l')) := by
  constructor
  · intro a b h
    rw [← canonical_normalize (jsonSize a) a le_rfl,
      ← canonical_normalize (jsonSize b) b le_rfl, h]
  · intro l l' hperm hnd
    rw [getCanonicalString_obj, getCanonicalString_obj, sortByKey_eq_of_perm hperm hnd]

/-- Witness for `getCanonicalString_key_order_independent`: two
two-field objects that differ only in insertion order serialize
identically. -/
theorem getCanonicalString_key_order_independent_witness :
    normalizeJson (.obj [("b", .num 1), ("a", .null)])
      = normalizeJson (.obj [("a", .null), ("b", .num 1)]) ∧
    getCanonicalString (.obj [("b", .num 1), ("a", .null)])
      = getCanonicalString (.obj [("a", .null), ("b", .num 1)]) :=
  ⟨rfl, getCanonicalString_key_order_independent.1 _ _ rfl⟩

/-! ## Claim C9: determinism and absence of mutation -/

theorem set_concat (l : List Board) (x y : Board) :
    (l ++ [x]).set l.length y = l ++ [y] := by
  induction l with
  | nil => rfl
  | cons a as ih =>
    show a :: (as ++ [x]).set as.length y = a :: (as ++ [y])
    rw [ih]

theorem transitionBodyH_pure (heap : List Board) (s : HeapGameState) (event : String)
    (eventData : EventData) (hr : s.boardRef < heap.length) :
    derefResult (transitionBodyH heap s event eventData)
        = transitionBody (pureOfHeap heap s) event eventData ∧
    (transitionBodyH heap s event eventData).1.take heap.length = heap ∧
    readBoard (transitionBodyH heap s event eventData).1 s.boardRef
        = readBoard heap s.boardRef := by
  have hreadc : ∀ y : Board, readBoard (heap ++ [y]) heap.length = y := by
    intro y
    rw [readBoard, List.get?_concat_length]
    rfl
  have hreadlt : ∀ y : Board, readBoard (heap ++ [y]) s.boardRef = readBoard heap s.boardRef := by
    intro y
    rw [readBoard, readBoard, List.get?_append hr]
  have htake : ∀ y : Board, (heap ++ [y]).take heap.length = heap := by
    intro y
    exact List.take_left heap [y]
  rw [transitionBodyH, transitionBody]
  dsimp only [pureOfHeap, cloneBoardH, writeCellH, cloneBoard]
  by_cases c1 : s.currentState = STATES.PLAYER_X_TURN
  · rw [if_pos c1, if_pos c1]
    by_cases c2 : event = EVENTS.PLAYER_MOVE_ATTEMPTED
    · rw [if_pos c2, if_pos c2]
      by_cases c3 : eventData.playerId ≠ some s.playerX
      · rw [if_pos c3, if_pos c3]
        exact ⟨rfl, List.take_length heap, rfl⟩
      · rw [if_neg c3, if_neg c3]
        by_cases c4 : eventData.move.rowIndex < 0 ∨ eventData.move.rowIndex > 2 ∨
            eventData.move.colIndex < 0 ∨ eventData.move.colIndex > 2 ∨
            getCell (readBoard heap s.boardRef)
              eventData.move.rowIndex.toNat eventData.move.colIndex.toNat ≠ ""
        · rw [if_pos c4, if_pos c4]
          exact ⟨rfl, List.take_length heap, rfl⟩
        · rw [if_neg c4, if_neg c4]
          rw [hreadc, set_concat, hreadc]
          split_ifs <;>
            exact ⟨by simp [derefResult, hreadc], htake _, hreadlt _⟩
    · rw [if_neg c2, if_neg c2]
      exact ⟨rfl, List.take_length heap, rfl⟩
  · rw [if_neg c1, if_neg c1]
    by_cases c1o : s.currentState = STATES.PLAYER_O_TURN
    · rw [if_pos c1o, if_pos c1o]
      by_cases c2 : event = EVENTS.PLAYER_MOVE_ATTEMPTED
      · rw [if_pos c2, if_pos c2]
        by_cases c3 : eventData.playerId ≠ some s.playerO
        · rw [if_pos c3, if_pos c3]
          exact ⟨rfl, List.take_length heap, rfl⟩
        · rw [if_neg c3, if_neg c3]
          by_cases c4 : eventData.move.rowIndex < 0 ∨ eventData.move.rowIndex > 2 ∨
              eventData.move.colIndex < 0 ∨ eventData.move.colIndex > 2 ∨
              getCell (readBoard heap s.boardRef)
                eventData.move.rowIndex.toNat eventData.move.colIndex.toNat ≠ ""
          · rw [if_pos c4, if_pos c4]
            exact ⟨rfl, List.take_length heap, rfl⟩
          · rw [if_neg c4, if_neg c4]
            rw [hreadc, set_concat, hreadc]
            split_ifs <;>
              exact ⟨by simp [derefResult, hreadc], htake _, hreadlt _⟩
      · rw [if_neg c2, if_neg c2]
        exact ⟨rfl, List.take_length heap, rfl⟩
    · rw [if_neg c1o, if_neg c1o]
      by_cases c5 : s.currentState = STATES.GAME_OVER_X_WINS ∨
          s.currentState = STATES.GAME_OVER_O_WINS ∨ s.currentState = STATES.GAME_OVER_DRAW
      · rw [if_pos c5, if_pos c5]
        exact ⟨rfl, List.take_length heap, rfl⟩
      · rw [if_neg c5, if_neg c5]
        exact ⟨rfl, List.take_length heap, rfl⟩

/-- C9: `transition` is deterministic and side-effect free.  In the
heap model (mutable boards behind references, `cloneBoard` allocating a
fresh cell), the observable result of `transitionH` is exactly the pure
function `transition` of the dereferenced input state — so two calls
with the same inputs yield identical `TransitionResult` values — and
the heap prefix that existed before the call is returned unchanged: in
particular the input state's board is never mutated, because the board
is cloned before the symbol is placed. -/
theorem transition_deterministic_no_mutation (heap : List Board) (s : HeapGameState)
    (event : String) (eventData : EventData) (hr : s.boardRef < heap.length) :
    (transitionH heap s event eventData).map derefResult
      = transition (pureOfHeap heap s) event eventData ∧
    (match transitionH heap s event eventData with
     | none => heap
     | some out => out.1.take heap.length) = heap ∧
    (match transitionH heap s event eventData with
     | none => readBoard heap s.boardRef
     | some out => readBoard out.1 s.boardRef) = readBoard heap s.boardRef := by
  rcases transitionBodyH_pure heap s event eventData hr with ⟨h1, h2, h3⟩
  by_cases hev : event = ""
  · refine ⟨?_, ?_, ?_⟩ <;> simp [transitionH, transition, hev]
  · simp only [transitionH, transition, if_neg hev, Option.map_some']
    exact ⟨by rw [h1], h2, h3⟩

/-- Witness for `transition_deterministic_no_mutation` on a one-board
heap: X's opening move allocates a clone and leaves the original board
untouched. -/
theorem transition_deterministic_no_mutation_witness :
    (0 : Nat) < ([blankBoard] : List Board).length ∧
    ((transitionH [blankBoard]
        { currentState := "PLAYER_X_TURN", boardRef := 0, playerX := "DOGE", playerO := "PEPE" }
        "PLAYER_MOVE_ATTEMPTED"
        { move := { rowIndex := 1, colIndex := 1 }, playerId := some "DOGE" }).map derefResult
      = transition (pureOfHeap [blankBoard]
          { currentState := "PLAYER_X_TURN", boardRef := 0, playerX := "DOGE", playerO := "PEPE" })
          "PLAYER_MOVE_ATTEMPTED"
          { move := { rowIndex := 1, colIndex := 1 }, playerId := some "DOGE" } ∧
     (match transitionH [blankBoard]
        { currentState := "PLAYER_X_TURN", boardRef := 0, playerX := "DOGE", playerO := "PEPE" }
        "PLAYER_MOVE_ATTEMPTED"
        { move := { rowIndex := 1, colIndex := 1 }, playerId := some "DOGE" } with
      | none => [blankBoard]
      | some out => out.1.take ([blankBoard] : List Board).length) = [blankBoard] ∧
     (match transitionH [blankBoard]
        { currentState := "PLAYER_X_TURN", boardRef := 0, playerX := "DOGE", playerO := "PEPE" }
        "PLAYER_MOVE_ATTEMPTED"
        { move := { rowIndex := 1, colIndex := 1 }, playerId := some "DOGE" } with
      | none => readBoard [blankBoard] 0
      | some out => readBoard out.1 0) = readBoard [blankBoard] 0) :=
  ⟨by decide,
    transition_deterministic_no_mutation [blankBoard]
      { currentState := "PLAYER_X_TURN", boardRef := 0, playerX := "DOGE", playerO := "PEPE" }
      "PLAYER_MOVE_ATTEMPTED"
      { move := { rowIndex := 1, colIndex := 1 }, playerId := some "DOGE" }
      (by decide)⟩

/-! ## Claim C7: honest play passes both verifiers -/

theorem calculateEntryHash_set_hash (H : String → String) (e : LogEntry) (h : String) :
    calculateEntryHash H { e with currentEntryChainHash := h } = calculateEntryHash H e := rfl

theorem chainEndHash_concat (e : LogEntry) :
    ∀ (l : List LogEntry) (prev : String),
      chainEndHash prev (l ++ [e]) = e.currentEntryChainHash := by
  intro l
  induction l with
  | nil => intro prev; rfl
  | cons x t ih => intro prev; exact ih x.currentEntryChainHash

theorem chainEndHash_cons (prev : String) (x : LogEntry) (l : List LogEntry) :
    chainEndHash prev (x :: l) = chainEndHash x.currentEntryChainHash l := rfl

theorem verifyHashChainGo_append_one (H : String → String) (e : LogEntry) :
    ∀ (l : List LogEntry) (prev : String),
      verifyHashChainGo H prev l = true →
      e.previousEntryChainHash = chainEndHash prev l →
      calculateEntryHash H e = e.currentEntryChainHash →
      verifyHashChainGo H prev (l ++ [e]) = true := by
  intro l
  induction l with
  | nil =>
    intro prev _ hlink hhash
    have hlink2 : e.previousEntryChainHash = prev := hlink
    rw [List.nil_append, verifyHashChainGo, if_neg (not_not_intro hlink2),
      if_neg (not_not_intro hhash)]
    rfl
  | cons x t ih =>
    intro prev hgo hlink hhash
    rw [verifyHashChainGo] at hgo
    by_cases h1 : x.previousEntryChainHash = prev
    · rw [if_neg (not_not_intro h1)] at hgo
      by_cases h2 : calculateEntryHash H x = x.currentEntryChainHash
      · rw [if_neg (not_not_intro h2)] at hgo
        rw [List.cons_append, verifyHashChainGo, if_neg (not_not_intro h1),
          if_neg (not_not_intro h2)]
        exact ih x.currentEntryChainHash hgo (by rw [hlink, chainEndHash_cons]) hhash
      · rw [if_pos h2] at hgo; cases hgo
    · rw [if_pos h1] at hgo; cases hgo

theorem transitionBody_invalid_newState (s : GameState) (event : String)
    (eventData : EventData)
    (hv : (transitionBody s event eventData).isValidMove = false) :
    (transitionBody s event eventData).newState = s.currentState := by
  rw [transitionBody] at hv ⊢
  dsimp only at hv ⊢
  split_ifs at hv ⊢ <;> first | rfl | simp at hv | simp [noTransitionResult]

theorem renderFinalEntry_not_over (H : String → String) (playerX_Id playerO_Id : String)
    (cs : ClientSt) (t : Int)
    (h : jsStartsWith cs.state.currentState "GAME_OVER" = false) :
    renderFinalEntry H playerX_Id playerO_Id cs t = cs := by
  rw [renderFinalEntry]
  cases cs.gameLog.getLast? with
  | none => rfl
  | some lastEntry =>
    dsimp only
    rw [if_neg (by rw [h]; simp)]

theorem addLogEntry_facts (H : String → String) (cs : ClientSt) (eventType : String)
    (eventData : Json) (t : Int) :
    ∃ e : LogEntry,
      (addLogEntry H cs eventType eventData t).gameLog = cs.gameLog ++ [e] ∧
      (addLogEntry H cs eventType eventData t).state = cs.state ∧
      (addLogEntry H cs eventType eventData t).latestEntryChainHash
        = e.currentEntryChainHash ∧
      e.eventType = eventType ∧
      e.fsmState = cs.state.currentState ∧
      e.boardState = boardToJson cs.state.board ∧
      e.eventData = eventData ∧
      e.previousEntryChainHash = cs.latestEntryChainHash ∧
      calculateEntryHash H e = e.currentEntryChainHash := by
  refine ⟨{ sequence := cs.sequenceNumber, eventType := eventType, clientTimestamp := t,
            eventData := eventData, boardState := boardToJson (cloneBoard cs.state.board),
            fsmState := cs.state.currentState,
            previousEntryChainHash := cs.latestEntryChainHash,
            currentEntryChainHash := calculateEntryHash H
              { sequence := cs.sequenceNumber, eventType := eventType, clientTimestamp := t,
                eventData := eventData, boardState := boardToJson (cloneBoard cs.state.board),
                fsmState := cs.state.currentState,
                previousEntryChainHash := cs.latestEntryChainHash,
                currentEntryChainHash := "" } },
    rfl, rfl, rfl, rfl, rfl, rfl, rfl, rfl, rfl⟩

/-- Appending an entry through `addLogEntry` keeps the chain verifying
and moves the chain head to the new entry's hash. -/
theorem addLogEntry_chain (H : String → String) (cs : ClientSt) (eventType : String)
    (eventData : Json) (t : Int) (e : LogEntry)
    (hlog : (addLogEntry H cs eventType eventData t).gameLog = cs.gameLog ++ [e])
    (hlatest : (addLogEntry H cs eventType eventData t).latestEntryChainHash
      = e.currentEntryChainHash)
    (hprev : e.previousEntryChainHash = cs.latestEntryChainHash)
    (hhash : calculateEntryHash H e = e.currentEntryChainHash)
    (hchain : verifyHashChainGo H zeroHash cs.gameLog = true)
    (hend : chainEndHash zeroHash cs.gameLog = cs.latestEntryChainHash) :
    verifyHashChainGo H zeroHash (addLogEntry H cs eventType eventData t).gameLog = true ∧
    chainEndHash zeroHash (addLogEntry H cs eventType eventData t).gameLog
      = (addLogEntry H cs eventType eventData t).latestEntryChainHash := by
  rw [hlog, hlatest]
  exact ⟨verifyHashChainGo_append_one H e cs.gameLog zeroHash hchain
      (by rw [hprev, hend]) hhash,
    chainEndHash_concat e cs.gameLog zeroHash⟩

theorem honestInv_start (H : String → String) (playerX_Id playerO_Id : String) (t0 : Int) :
    honestInv H playerX_Id playerO_Id (startGame H playerX_Id playerO_Id t0) := by
  rw [startGame]
  obtain ⟨e, hlog, hstate, hlatest, het, hfsm, hbs, hed, hprev, hhash⟩ :=
    addLogEntry_facts H
      { state := getInitialGameState playerX_Id playerO_Id,
        gameLog := [], latestEntryChainHash := zeroHash, sequenceNumber := 0 }
      "GAME_CREATED"
      (.obj [("playerX", .str playerX_Id), ("playerO", .str playerO_Id)]) t0
  rw [renderFinalEntry_not_over _ _ _ _ _ (by rw [hstate]; rfl)]
  obtain ⟨hch, hendh⟩ := addLogEntry_chain H _ _ _ _ e hlog hlatest hprev hhash rfl rfl
  refine ⟨by rw [hstate]; rfl, by rw [hstate]; rfl, hch, hendh, ?_, ?_, ?_⟩
  · rw [hlog, hstate, List.nil_append]
    have hfe : (e.eventType == "PLAYER_MOVE_VALIDATED") = false := by rw [het]; rfl
    rw [List.filter_cons,
      if_neg (show ¬ (e.eventType == "PLAYER_MOVE_VALIDATED") = true by rw [hfe]; simp)]
    rfl
  · rw [hlog]; simp
  · intro hover
    rw [hstate] at hover
    exact Bool.noConfusion hover

/-- When the game has just ended and the last entry is the validating
move, `renderFinalEntry` appends the terminal `GAME_WON`/`GAME_DRAWN`
entry. -/
theorem renderFinalEntry_over (H : String → String) (playerX_Id playerO_Id : String)
    (cs : ClientSt) (t : Int) (e : LogEntry)
    (hlast : cs.gameLog.getLast? = some e)
    (hover : jsStartsWith cs.state.currentState "GAME_OVER" = true)
    (hplayer : jsStartsWith e.eventType "PLAYER_" = true)
    (hchain : verifyHashChainGo H zeroHash cs.gameLog = true)
    (hend : chainEndHash zeroHash cs.gameLog = cs.latestEntryChainHash) :
    ∃ e2 : LogEntry,
      (renderFinalEntry H playerX_Id playerO_Id cs t).gameLog = cs.gameLog ++ [e2] ∧
      (renderFinalEntry H playerX_Id playerO_Id cs t).state = cs.state ∧
      verifyHashChainGo H zeroHash (renderFinalEntry H playerX_Id playerO_Id cs t).gameLog
        = true ∧
      chainEndHash zeroHash (renderFinalEntry H playerX_Id playerO_Id cs t).gameLog
        = (renderFinalEntry H playerX_Id playerO_Id cs t).latestEntryChainHash ∧
      (e2.eventType == "PLAYER_MOVE_VALIDATED") = false ∧
      jsStartsWith e2.eventType "GAME_" = true ∧
      e2.fsmState = cs.state.currentState := by
  have hrw : renderFinalEntry H playerX_Id playerO_Id cs t
      = addLogEntry H cs
        (if cs.state.currentState = STATES.GAME_OVER_DRAW then "GAME_DRAWN" else "GAME_WON")
        (if (if cs.state.currentState = STATES.GAME_OVER_DRAW then "GAME_DRAWN"
              else "GAME_WON") = "GAME_WON"
         then Json.obj [("winningPlayerId",
            .str (if cs.state.currentState = STATES.GAME_OVER_X_WINS then playerX_Id
              else playerO_Id))]
         else Json.obj []) t := by
    rw [renderFinalEntry, hlast]
    dsimp only
    rw [if_pos ⟨hover, hplayer⟩]
  obtain ⟨e2, hlog, hstate, hlatest, het, hfsm, hbs, hed, hprev, hhash⟩ :=
    addLogEntry_facts H cs
      (if cs.state.currentState = STATES.GAME_OVER_DRAW then "GAME_DRAWN" else "GAME_WON")
      (if (if cs.state.currentState = STATES.GAME_OVER_DRAW then "GAME_DRAWN"
            else "GAME_WON") = "GAME_WON"
       then Json.obj [("winningPlayerId",
          .str (if cs.state.currentState = STATES.GAME_OVER_X_WINS then playerX_Id
            else playerO_Id))]
       else Json.obj []) t
  obtain ⟨hch2, hend2⟩ := addLogEntry_chain H _ _ _ _ e2 hlog hlatest hprev hhash hchain hend
  rw [hrw]
  exact ⟨e2, hlog, hstate, hch2, hend2,
    by rw [het]; split_ifs <;> rfl,
    by rw [het]; split_ifs <;> rfl,
    hfsm⟩

theorem transition_pma (s : GameState) (eventData : EventData) :
    transition s EVENTS.PLAYER_MOVE_ATTEMPTED eventData
      = some (transitionBody s EVENTS.PLAYER_MOVE_ATTEMPTED eventData) := by
  rw [transition, if_neg (show ¬ EVENTS.PLAYER_MOVE_ATTEMPTED = "" by decide)]

theorem honestInv_step (H : String → String) (playerX_Id playerO_Id : String)
    (cs : ClientSt) (click : Click)
    (hInv : honestInv H playerX_Id playerO_Id cs) :
    honestInv H playerX_Id playerO_Id (handleCellClick H playerX_Id playerO_Id cs click) := by
  obtain ⟨hpx, hpo, hchain, hend, hreplay, hne, hterm⟩ := hInv
  rw [handleCellClick]
  by_cases hover : jsStartsWith cs.state.currentState "GAME_OVER" = true
  · rw [if_pos hover]
    exact ⟨hpx, hpo, hchain, hend, hreplay, hne, hterm⟩
  · rw [if_neg hover]
    dsimp only
    rw [transition_pma]
    dsimp only
    set pid := if cs.state.currentState = STATES.PLAYER_X_TURN then playerX_Id else playerO_Id
      with hpid
    set sym := if cs.state.currentState = STATES.PLAYER_X_TURN then "X" else "O" with hsym
    set ed : EventData :=
      { move := { rowIndex := click.rowIndex, colIndex := click.colIndex },
        playerId := some pid } with hedd
    set res := transitionBody cs.state EVENTS.PLAYER_MOVE_ATTEMPTED ed with hresd
    by_cases hv : res.isValidMove = true
    · -- a validated move
      rw [if_pos hv]
      obtain ⟨nb, hnb⟩ := transitionBody_valid_newBoard cs.state EVENTS.PLAYER_MOVE_ATTEMPTED ed
        (by rw [← hresd]; exact hv)
      rw [← hresd] at hnb
      rw [if_pos hv, hnb]
      dsimp only [Option.getD]
      obtain ⟨e, hlog, hstate, hlatest, het, hfsm, hbs, hed, hprev, hhash⟩ :=
        addLogEntry_facts H
          { cs with state := { cs.state with currentState := res.newState, board := nb } }
          "PLAYER_MOVE_VALIDATED"
          (.obj [("playerId", .str pid),
                 ("move", .obj [("rowIndex", .num click.rowIndex),
                                ("colIndex", .num click.colIndex)]),
                 ("symbolPlaced", .str sym)])
          click.timestamp
      obtain ⟨hch2, hend2⟩ := addLogEntry_chain H _ _ _ _ e hlog hlatest hprev hhash hchain hend
      have hstate2 : (addLogEntry H
          { cs with state := { cs.state with currentState := res.newState, board := nb } }
          "PLAYER_MOVE_VALIDATED"
          (.obj [("playerId", .str pid),
                 ("move", .obj [("rowIndex", .num click.rowIndex),
                                ("colIndex", .num click.colIndex)]),
                 ("symbolPlaced", .str sym)])
          click.timestamp).state
          = { cs.state with currentState := res.newState, board := nb } := hstate
      have hex : extractEventData e = some ed := by
        simp only [extractEventData, extractPlayerId, hed]
        rfl
      have hfe : (e.eventType == "PLAYER_MOVE_VALIDATED") = true := by rw [het]; rfl
      have hreplay2 : replayMoves H (getInitialGameState playerX_Id playerO_Id)
          ((addLogEntry H
            { cs with state := { cs.state with currentState := res.newState, board := nb } }
            "PLAYER_MOVE_VALIDATED"
            (.obj [("playerId", .str pid),
                   ("move", .obj [("rowIndex", .num click.rowIndex),
                                  ("colIndex", .num click.colIndex)]),
                   ("symbolPlaced", .str sym)])
            click.timestamp).gameLog.filter
              (fun entry => entry.eventType == "PLAYER_MOVE_VALIDATED"))
          = some (.ok { cs.state with currentState := res.newState, board := nb }) := by
        rw [hlog, List.filter_append, List.filter_cons, if_pos hfe, List.filter_nil,
          replayMoves_append, hreplay]
        dsimp only
        rw [replayMoves, hex]
        dsimp only
        rw [transition_pma, ← hresd]
        dsimp only
        rw [if_neg (show ¬ (!res.isValidMove) = true by rw [hv]; simp)]
        rw [if_neg (show ¬ res.newState ≠ e.fsmState by rw [hfsm]; exact not_not_intro rfl)]
        rw [hnb]
        dsimp only
        rw [if_neg (show ¬ H (getCanonicalString (boardToJson nb))
            ≠ H (getCanonicalString e.boardState) by rw [hbs]; exact not_not_intro rfl)]
        rw [replayMoves]
      -- now the final render step
      by_cases hover2 : jsStartsWith res.newState "GAME_OVER" = true
      · -- the move ended the game: the final entry is appended
        obtain ⟨e2, hlog3, hstate3, hch3, hend3, hfe3, hpre3, hfsm3⟩ :=
          renderFinalEntry_over H playerX_Id playerO_Id _ click.timestamp e
            (by rw [hlog, List.getLast?_concat]) (by rw [hstate2]; exact hover2)
            (by rw [het]; rfl) hch2 hend2
        refine ⟨?_, ?_, hch3, hend3, ?_, ?_, ?_⟩
        · rw [hstate3, hstate2]; exact hpx
        · rw [hstate3, hstate2]; exact hpo
        · rw [hlog3, List.filter_append, List.filter_cons,
            if_neg (by rw [hfe3]; simp), List.filter_nil, List.append_nil, hstate3, hreplay2,
            hstate2]
        · rw [hlog3]; simp
        · intro _
          refine ⟨e2, ?_, hpre3, ?_⟩
          · rw [hlog3, List.getLast?_concat]
          · rw [hstate3, hfsm3]
      · -- the game continues: render appends nothing
        rw [renderFinalEntry_not_over _ _ _ _ _ (by
          rw [hstate2]
          exact Bool.not_eq_true _ ▸ (by simpa using hover2))]
        refine ⟨?_, ?_, hch2, hend2, hreplay2, ?_, ?_⟩
        · rw [hstate2]; exact hpx
        · rw [hstate2]; exact hpo
        · rw [hlog]; simp
        · intro hc
          rw [hstate2] at hc
          exact absurd hc hover2
    · -- a rejected move: the state is unchanged and the entry is filtered out
      rw [if_neg hv, if_neg hv]
      have hnewst : ({ cs.state with
          currentState := res.newState, board := cs.state.board } : GameState) = cs.state := by
        rw [hresd, transitionBody_invalid_newState cs.state EVENTS.PLAYER_MOVE_ATTEMPTED ed
          (Bool.not_eq_true _ ▸ (by simpa using hv))]
      rw [hnewst]
      obtain ⟨e, hlog, hstate, hlatest, het, hfsm, hbs, hed, hprev, hhash⟩ :=
        addLogEntry_facts H { cs with state := cs.state } "PLAYER_MOVE_REJECTED"
          (.obj [("playerId", .str pid),
                 ("attemptedMove", .obj [("rowIndex", .num click.rowIndex),
                                         ("colIndex", .num click.colIndex)]),
                 ("reason", match res.error with | some err => .str err | none => .null)])
          click.timestamp
      obtain ⟨hch2, hend2⟩ := addLogEntry_chain H _ _ _ _ e hlog hlatest hprev hhash hchain hend
      rw [renderFinalEntry_not_over _ _ _ _ _ (by
        rw [hstate]
        exact Bool.not_eq_true _ ▸ (by simpa using hover))]
      refine ⟨?_, ?_, hch2, hend2, ?_, ?_, ?_⟩
      · rw [hstate]; exact hpx
      · rw [hstate]; exact hpo
      · rw [hlog, List.filter_append, List.filter_cons,
          if_neg (show ¬ (e.eventType == "PLAYER_MOVE_VALIDATED") = true by rw [het]; simp),
          List.filter_nil, List.append_nil, hreplay, hstate]
      · rw [hlog]; simp
      · intro hc
        rw [hstate] at hc
        exact absurd hc hover

theorem honestInv_playGame (H : String → String) (playerX_Id playerO_Id : String)
    (t0 : Int) (clicks : List Click) :
    honestInv H playerX_Id playerO_Id (playGame H playerX_Id playerO_Id t0 clicks) := by
  rw [playGame]
  have hgen : ∀ (cl : List Click) (cs : ClientSt), honestInv H playerX_Id playerO_Id cs →
      honestInv H playerX_Id playerO_Id
        (cl.foldl (handleCellClick H playerX_Id playerO_Id) cs) := by
    intro cl
    induction cl with
    | nil => intro cs h; exact h
    | cons c ct ih =>
      intro cs h
      exact ih _ (honestInv_step H playerX_Id playerO_Id cs c h)
  exact hgen clicks _ (honestInv_start H playerX_Id playerO_Id t0)

/-- C7: round trip — every log produced by legitimate FSM-driven play
(a `GAME_CREATED` entry, a `addLogEntry`-authored entry per click, and,
once the game is over, a final `GAME_WON`/`GAME_DRAWN` entry) passes
both verifiers: `verifyChain` returns true and `verifyGameplay` returns
true, for any digest function. -/
theorem honest_play_verifies (H : String → String) (playerX_Id playerO_Id : String)
    (t0 : Int) (clicks : List Click)
    (hdone : jsStartsWith (playGame H playerX_Id playerO_Id t0 clicks).state.currentState
      "GAME_OVER" = true) :
    verifyHashChain H (playGame H playerX_Id playerO_Id t0 clicks).gameLog = true ∧
    verifyFsmGameplay H (playGame H playerX_Id playerO_Id t0 clicks).gameLog
      playerX_Id playerO_Id = some true := by
  obtain ⟨hpx, hpo, hchain, hend, hreplay, hne, hterm⟩ :=
    honestInv_playGame H playerX_Id playerO_Id t0 clicks
  refine ⟨hchain, ?_⟩
  obtain ⟨e, hlast, hpre, hfsm⟩ := hterm hdone
  rw [verifyFsmGameplay, hreplay]
  dsimp only
  rw [hlast]
  dsimp only
  rw [if_neg (not_not_intro hpre), if_neg (not_not_intro hfsm)]

set_option maxRecDepth 400000 in
/-- Witness for `honest_play_verifies`: the five-click game in which X
completes the top row produces a log that passes both verifiers. -/
theorem honest_play_verifies_witness :
    jsStartsWith (playGame (fun s => s) "DOGE" "PEPE" 0 demoClicks).state.currentState
      "GAME_OVER" = true ∧
    verifyHashChain (fun s => s) (playGame (fun s => s) "DOGE" "PEPE" 0 demoClicks).gameLog
      = true ∧
    verifyFsmGameplay (fun s => s) (playGame (fun s => s) "DOGE" "PEPE" 0 demoClicks).gameLog
      "DOGE" "PEPE" = some true :=
  ⟨rfl, honest_play_verifies (fun s => s) "DOGE" "PEPE" 0 demoClicks rfl⟩

end TicTacToe
